import Mathlib

/-!
Verification development for the Genesis language reference implementation
(lexer, recursive-descent parser, and resonance-based interpreter).

The definitions below are a shallow embedding of `src/genesis_parser.py` and
`src/genesis_interpreter.py`: Python strings become `String`/`List Char`,
Python int/float numbers become `ℚ`, fallible code returns `Except`, and the
character-by-character lexer loop becomes a fuel-indexed step function whose
fuel is shown adequate.  Line references in comments point into the Python
sources.
-/

namespace Genesis

/-- Token types of the Genesis lexer (`TokenType` enum, genesis_parser.py:30-99). -/
inductive TokenType where
  | COVENANT | PANTHEON | AVATAR | DOMAIN | SOUL | PURPOSE | PULSE | WATCH
  | DELIBERATE | SYNTHESIZE | MANIFEST | DECREE | POTENTIALITY | VESSEL
  | LINEAGE | AURA | ESSENCE | INTENT | THRESHOLD | INVARIANT | CONDITION
  | ACTION | EXECUTE | UPDATE | RESONATE | PROPOSAL | METRIC | ALIGNMENT
  | ASPIRATION | ON | INTERVAL | STATE | DRIVE | REFLECT | OVERRIDE
  | CONSTRAINT | OBSERVE | OBJECTIVE | ANCHOR | TRAJECTORY | RESONANCE
  | STRING | NUMBER | IDENTIFIER
  | LBRACE | RBRACE | LPAREN | RPAREN | COLON | COMMA | DOT
  | GT | LT | GTE | LTE | EQ | NEQ | ARROW
  | COMMENT | NEWLINE | EOF
deriving DecidableEq, Repr

/-- Value carried by a token (`Token.value : Any`): a string for keywords,
identifiers, strings and operator lexemes; a number for `NUMBER`; Python
`None` for `EOF`. -/
inductive TokValue where
  | str (s : String)
  | num (q : ℚ)
  | noneV
deriving DecidableEq, Repr

/-- A token (`Token` dataclass, genesis_parser.py:102-108). -/
structure Token where
  type : TokenType
  value : TokValue
  line : ℕ
  col : ℕ
deriving DecidableEq, Repr

/-- Errors the lexer can raise: `SyntaxError(f"Unexpected character ... at line
..., column ...")` for an unmatched character, and the `TypeError` Python's
`str.join` raises when `read_string` hits a backslash at end of input
(genesis_parser.py:241-262 appends `None` to the char list in that case). -/
inductive LexErr where
  | unexpectedChar (line col : ℕ) (c : Char)
  | strJoinTypeError
deriving DecidableEq, Repr

/-- Lexer state: the remaining input together with the 1-based line and column
of its first character (`Lexer.pos/line/column`, genesis_parser.py:170-175). -/
structure LexState where
  rest : List Char
  line : ℕ
  col : ℕ
deriving DecidableEq, Repr

/-- Position update performed by `Lexer.advance` (genesis_parser.py:190-204):
a newline moves to the next line's column 1, anything else moves one column. -/
def stepPos (c : Char) (l k : ℕ) : ℕ × ℕ :=
  if c = '\n' then (l + 1, 1) else (l, k + 1)

/-- `Lexer.advance`: consume one character, updating line/column. -/
def advanceL (st : LexState) : LexState :=
  match st with
  | ⟨[], l, k⟩ => ⟨[], l, k⟩
  | ⟨c :: cs, l, k⟩ => ⟨cs, (stepPos c l k).1, (stepPos c l k).2⟩

/-- `Lexer.skip_whitespace` (genesis_parser.py:206-209): consume spaces, tabs
and carriage returns (not newlines).  The remaining input is passed as an
explicit list so the recursion is structural. -/
def skipWs : List Char → ℕ → ℕ → LexState
  | c :: cs, l, k =>
    if c = ' ' ∨ c = '\t' ∨ c = '\r' then skipWs cs (stepPos c l k).1 (stepPos c l k).2
    else ⟨c :: cs, l, k⟩
  | [], l, k => ⟨[], l, k⟩

/-- Tail of `Lexer.skip_comment` for a `###` block comment (genesis_parser.py:
219-228): scan until a closing `###` (consuming it) or end of input. -/
def skipBlockComment : List Char → ℕ → ℕ → LexState
  | '#' :: '#' :: '#' :: rest, l, k => ⟨rest, l, k + 3⟩
  | c :: cs, l, k => skipBlockComment cs (stepPos c l k).1 (stepPos c l k).2
  | [], l, k => ⟨[], l, k⟩

/-- Tail of `Lexer.skip_comment` for a single-line comment (genesis_parser.py:
229-232): consume up to, but not including, the next newline. -/
def skipLineComment : List Char → ℕ → ℕ → LexState
  | c :: cs, l, k =>
    if c = '\n' then ⟨c :: cs, l, k⟩
    else skipLineComment cs l (k + 1)
  | [], l, k => ⟨[], l, k⟩

/-- `Lexer.skip_comment` (genesis_parser.py:211-232): `###` opens a block
comment (closed by `###`), a single `#` a line comment. -/
def skipComment : List Char → ℕ → ℕ → LexState
  | '#' :: '#' :: '#' :: rest, l, k => skipBlockComment rest l (k + 3)
  | '#' :: cs, l, k => skipLineComment cs l (k + 1)
  | rest, l, k => ⟨rest, l, k⟩

/-- Escape-sequence mapping of `read_string` (genesis_parser.py:243-253):
`\n`, `\t`, `\\` and an escaped quote are translated, anything else passes
through literally. -/
def escapeChar (q e : Char) : Char :=
  if e = 'n' then '\n' else if e = 't' then '\t'
  else if e = '\\' then '\\' else if e = q then q else e

/-- `Lexer.read_string` after the opening quote has been consumed
(genesis_parser.py:234-262).  `q` is the quote character.  Escapes `\n \t \\`
and `\<quote>` are translated, any other escaped character passes through
literally; a backslash immediately before end of input makes Python append
`None` to the character list, so the final `''.join` raises `TypeError`.
An unterminated string (end of input before the quote) returns normally. -/
def readStringAux (q : Char) : List Char → ℕ → ℕ → Except LexErr (List Char × LexState)
  | [], l, k => .ok ([], ⟨[], l, k⟩)
  | c :: cs, l, k =>
    if c = q then .ok ([], ⟨cs, (stepPos c l k).1, (stepPos c l k).2⟩)
    else if c = '\\' then
      match cs with
      | [] => .error .strJoinTypeError
      | e :: cs2 =>
        match readStringAux q cs2 (stepPos e (stepPos c l k).1 (stepPos c l k).2).1
            (stepPos e (stepPos c l k).1 (stepPos c l k).2).2 with
        | .error er => .error er
        | .ok (restChars, st') => .ok (escapeChar q e :: restChars, st')
    else
      match readStringAux q cs (stepPos c l k).1 (stepPos c l k).2 with
      | .error er => .error er
      | .ok (restChars, st') => .ok (c :: restChars, st')

/-- The character classes the `tokenize` rules test with Python's
`str.isdigit`, `str.isalpha` and `str.isalnum`.  These predicates are
Unicode-aware (they consult the Unicode character database: `'é'.isalpha()`
and `'٣'.isdigit()` are `True`), so rather than transcribe those tables the
lexer is embedded parametrically in the three classes, and theorems
quantified over a `CharClasses` hold in particular for the real tables.
The two bundled facts are documented properties of the Python predicates:
`str.isalnum` is defined as `isalpha() or isdecimal() or isdigit() or
isnumeric()`, so every alphabetic character is alphanumeric; and on the
ASCII range the Unicode classes coincide with the ASCII ones (`[0-9]`,
`[A-Za-z]`, `[0-9A-Za-z]`). -/
structure CharClasses where
  isDigit : Char → Bool
  isAlpha : Char → Bool
  isAlnum : Char → Bool
  alpha_alnum : ∀ c, isAlpha c = true → isAlnum c = true
  ascii_agree : ∀ c : Char, c.toNat < 128 →
    isDigit c = c.isDigit ∧ isAlpha c = c.isAlpha ∧ isAlnum c = c.isAlphanum

/-- The ASCII restriction of the three classes: by `ascii_agree` it is the
unique `CharClasses` on ASCII inputs, so evaluating the lexer on all-ASCII
concrete strings with `asciiCC` is faithful to the program. -/
def asciiCC : CharClasses where
  isDigit := Char.isDigit
  isAlpha := Char.isAlpha
  isAlnum := Char.isAlphanum
  alpha_alnum := fun c h => by simp [Char.isAlphanum, h]
  ascii_agree := fun _ _ => ⟨rfl, rfl, rfl⟩

/-- Character-consuming loop of `Lexer.read_number` (genesis_parser.py:264-278):
a maximal run of `isdigit` characters containing at most one `.` (a second
dot stops the scan; the dot case is tested first, as in the Python loop
body).  Digits and dots are never newlines, so only the column moves. -/
def readNumberAux (cc : CharClasses) (hasDot : Bool) :
    List Char → ℕ → ℕ → List Char × LexState
  | [], l, k => ([], ⟨[], l, k⟩)
  | c :: cs, l, k =>
    if cc.isDigit c ∨ c = '.' then
      if c = '.' then
        if hasDot then ([], ⟨c :: cs, l, k⟩)
        else
          let r := readNumberAux cc true cs l (k + 1)
          (c :: r.1, r.2)
      else
        let r := readNumberAux cc hasDot cs l (k + 1)
        (c :: r.1, r.2)
    else ([], ⟨c :: cs, l, k⟩)

/-- `Lexer.read_identifier` (genesis_parser.py:280-288): a maximal run of
`isalnum` characters and underscores. -/
def readIdentAux (cc : CharClasses) : List Char → ℕ → ℕ → List Char × LexState
  | [], l, k => ([], ⟨[], l, k⟩)
  | c :: cs, l, k =>
    if cc.isAlnum c ∨ c = '_' then
      let r := readIdentAux cc cs l (k + 1)
      (c :: r.1, r.2)
    else ([], ⟨c :: cs, l, k⟩)

/-- Numeric value of a digit run. -/
def natOfDigits (ds : List Char) : ℕ :=
  ds.foldl (fun a c => 10 * a + (c.toNat - 48)) 0

/-- Value of the character run collected by `read_number`: Python converts it
with `int`/`float`; both embed into `ℚ` as integer part plus decimal
fraction.  By construction the run holds at most one dot.  This digit-to-ℕ
conversion is exact for ASCII digit runs, which is where the theorems below
evaluate token values; the run's extent, which the claims concern, is
class-parametric. -/
def numValue (ds : List Char) : ℚ :=
  let ip := ds.takeWhile (fun c => c ≠ '.')
  let fp := (ds.dropWhile (fun c => c ≠ '.')).drop 1
  (natOfDigits ip : ℚ) + (natOfDigits fp : ℚ) / (10 : ℚ) ^ fp.length

/-- The fixed keyword table `Lexer.KEYWORDS` (genesis_parser.py:126-168). -/
def KEYWORDS : List (String × TokenType) :=
  [("Covenant", .COVENANT), ("Pantheon", .PANTHEON), ("Avatar", .AVATAR),
   ("Domain", .DOMAIN), ("Soul", .SOUL), ("Purpose", .PURPOSE), ("Pulse", .PULSE),
   ("Watch", .WATCH), ("Deliberate", .DELIBERATE), ("Synthesize", .SYNTHESIZE),
   ("Manifest", .MANIFEST), ("Decree", .DECREE), ("Potentiality", .POTENTIALITY),
   ("Vessel", .VESSEL), ("Lineage", .LINEAGE), ("Aura", .AURA),
   ("Essence", .ESSENCE), ("Intent", .INTENT), ("Threshold", .THRESHOLD),
   ("Invariant", .INVARIANT), ("Condition", .CONDITION), ("Action", .ACTION),
   ("Execute", .EXECUTE), ("Update", .UPDATE), ("Resonate", .RESONATE),
   ("Proposal", .PROPOSAL), ("Metric", .METRIC), ("Alignment", .ALIGNMENT),
   ("Aspiration", .ASPIRATION), ("on", .ON), ("Interval", .INTERVAL),
   ("State", .STATE), ("Drive", .DRIVE), ("Reflect", .REFLECT),
   ("Override", .OVERRIDE), ("Constraint", .CONSTRAINT), ("Observe", .OBSERVE),
   ("Objective", .OBJECTIVE), ("Anchor", .ANCHOR), ("Trajectory", .TRAJECTORY),
   ("Resonance", .RESONANCE)]

/-- Table lookup for `KEYWORDS.get(value, TokenType.IDENTIFIER)`. -/
def keywordLookup (s : String) : List (String × TokenType) → TokenType
  | [] => .IDENTIFIER
  | (k, t) :: rest => if k = s then t else keywordLookup s rest

/-- Token type of an identifier lexeme: its keyword entry, else `IDENTIFIER`
(genesis_parser.py:327). -/
def keywordType (s : String) : TokenType := keywordLookup s KEYWORDS

/-- Result of one iteration of the `Lexer.tokenize` main loop
(genesis_parser.py:290-396): end of input reached, a lexical error, one token
emitted, or input skipped (comment or newline). -/
inductive LexStepRes where
  | eofR (line col : ℕ)
  | errR (e : LexErr)
  | tokR (t : Token) (st : LexState)
  | skipR (st : LexState)
deriving Repr

/-- Single-character-and-operator dispatch of the `tokenize` loop body
(genesis_parser.py:331-393), reached when the current character `c` is not a
comment, newline, string, number or identifier start.  Multi-character
operators `>= <= == != ->` inspect the peeked character first; a lone `=`,
`!` or `-` raises, as does any character matched by no rule. -/
def lexOp (c : Char) (cs : List Char) (l k : ℕ) : LexStepRes :=
  if c = '{' then .tokR ⟨.LBRACE, .str "\x7b", l, k⟩ ⟨cs, l, k + 1⟩
  else if c = '}' then .tokR ⟨.RBRACE, .str "\x7d", l, k⟩ ⟨cs, l, k + 1⟩
  else if c = '(' then .tokR ⟨.LPAREN, .str "(", l, k⟩ ⟨cs, l, k + 1⟩
  else if c = ')' then .tokR ⟨.RPAREN, .str ")", l, k⟩ ⟨cs, l, k + 1⟩
  else if c = ':' then .tokR ⟨.COLON, .str ":", l, k⟩ ⟨cs, l, k + 1⟩
  else if c = ',' then .tokR ⟨.COMMA, .str ",", l, k⟩ ⟨cs, l, k + 1⟩
  else if c = '.' then .tokR ⟨.DOT, .str ".", l, k⟩ ⟨cs, l, k + 1⟩
  else if c = '>' then
    if cs.head? = some '=' then .tokR ⟨.GTE, .str ">=", l, k⟩ ⟨cs.tail, l, k + 2⟩
    else .tokR ⟨.GT, .str ">", l, k⟩ ⟨cs, l, k + 1⟩
  else if c = '<' then
    if cs.head? = some '=' then .tokR ⟨.LTE, .str "<=", l, k⟩ ⟨cs.tail, l, k + 2⟩
    else .tokR ⟨.LT, .str "<", l, k⟩ ⟨cs, l, k + 1⟩
  else if c = '=' then
    if cs.head? = some '=' then .tokR ⟨.EQ, .str "==", l, k⟩ ⟨cs.tail, l, k + 2⟩
    else .errR (.unexpectedChar l k '=')
  else if c = '!' then
    if cs.head? = some '=' then .tokR ⟨.NEQ, .str "!=", l, k⟩ ⟨cs.tail, l, k + 2⟩
    else .errR (.unexpectedChar l k '!')
  else if c = '-' then
    if cs.head? = some '>' then .tokR ⟨.ARROW, .str "->", l, k⟩ ⟨cs.tail, l, k + 2⟩
    else .errR (.unexpectedChar l k '-')
  else .errR (.unexpectedChar l k c)

/-- One iteration of the `tokenize` loop body after whitespace skipping, for a
non-empty remaining input starting at `c` (line `l`, column `k`): comments,
newline, string, number, identifier/keyword, then `lexOp`
(genesis_parser.py:298-393). -/
def lexCore (cc : CharClasses) (c : Char) (cs : List Char) (l k : ℕ) : LexStepRes :=
  if c = '#' then .skipR (skipComment (c :: cs) l k)
  else if c = '\n' then .skipR ⟨cs, l + 1, 1⟩
  else if c = '"' ∨ c = '\'' then
    match readStringAux c cs l (k + 1) with
    | .error e => .errR e
    | .ok (chars, st') => .tokR ⟨.STRING, .str (String.mk chars), l, k⟩ st'
  else if cc.isDigit c then
    let r := readNumberAux cc false (c :: cs) l k
    .tokR ⟨.NUMBER, .num (numValue r.1), l, k⟩ r.2
  else if cc.isAlpha c ∨ c = '_' then
    let r := readIdentAux cc (c :: cs) l k
    let s := String.mk r.1
    .tokR ⟨keywordType s, .str s, l, k⟩ r.2
  else lexOp c cs l k

/-- One iteration of the `Lexer.tokenize` loop body (genesis_parser.py:
292-393): skip whitespace, stop at end of input, else record the token start
position and dispatch through `lexCore`. -/
def lexStep (cc : CharClasses) (st0 : LexState) : LexStepRes :=
  match skipWs st0.rest st0.line st0.col with
  | ⟨[], l, k⟩ => .eofR l k
  | ⟨c :: cs, l, k⟩ => lexCore cc c cs l k

/-- Fuel-indexed `Lexer.tokenize` loop (genesis_parser.py:290-396): iterate
`lexStep`, appending emitted tokens, until end of input (append the single
`EOF` token) or a lexical error.  `none` means the fuel ran out; the fuel
adequacy theorem shows `source length + 1` always suffices. -/
def tokenizeAux (cc : CharClasses) :
    ℕ → LexState → List Token → Option (Except LexErr (List Token))
  | 0, _, _ => none
  | fuel + 1, st, acc =>
    match lexStep cc st with
    | .eofR l k => some (.ok (acc ++ [⟨.EOF, .noneV, l, k⟩]))
    | .errR e => some (.error e)
    | .tokR t st' => tokenizeAux cc fuel st' (acc ++ [t])
    | .skipR st' => tokenizeAux cc fuel st' acc

/-- Initial lexer state for a source string (line 1, column 1). -/
def initLex (s : String) : LexState := ⟨s.data, 1, 1⟩

/-- `Lexer(source).tokenize()` with the canonical adequate fuel. -/
def tokenizeO (cc : CharClasses) (s : String) : Option (Except LexErr (List Token)) :=
  tokenizeAux cc (s.data.length + 1) (initLex s) []

/-- Total wrapper around `tokenizeO`; the default is unreachable by the fuel
adequacy theorem below. -/
def tokenize (cc : CharClasses) (s : String) : Except LexErr (List Token) :=
  (tokenizeO cc s).getD (.error (.unexpectedChar 0 0 ' '))

instance instDecEqExceptG {ε α : Type} [DecidableEq ε] [DecidableEq α] :
    DecidableEq (Except ε α) := fun a b =>
  match a, b with
  | .ok x, .ok y => if h : x = y then .isTrue (by rw [h]) else .isFalse (by simp [h])
  | .error x, .error y => if h : x = y then .isTrue (by rw [h]) else .isFalse (by simp [h])
  | .ok _, .error _ => .isFalse (by simp)
  | .error _, .ok _ => .isFalse (by simp)

/-- Member-access chains (`MemberAccess` dataclass, genesis_parser.py:532-536):
the object is either a plain name or another member access. -/
inductive MAccess where
  | baseDot (obj : String) (member : String)
  | chainDot (obj : MAccess) (member : String)
deriving DecidableEq, Repr

/-- Expression nodes produced by `parse_expression` (genesis_parser.py:
1016-1059): literals, identifiers, function calls, member accesses, and the
single-level comparison dict `parse_comparison` returns. -/
inductive Expr where
  | literal (v : TokValue)
  | ident (name : String)
  | funcCall (name : String) (args : List Expr)
  | member (m : MAccess)
  | comparison (op : TokenType) (left right : Expr)
deriving Repr

/-- Entries of a `Synthesize` block's metric list (genesis_parser.py:898-915):
either a parsed expression (after `Metric:`) or a bare string literal. -/
inductive SynthMetric where
  | exprM (e : Expr)
  | strM (s : String)
deriving Repr

/-- A value stored in one of the loosely-typed `properties` dictionaries:
a raw token value (string or number), a parsed expression, or a nested
synthesize block (only in `ResonateBlock.properties`). -/
inductive PropVal where
  | tokv (v : TokValue)
  | expr (e : Expr)
deriving Repr

/-- A Python `dict` keyed by strings, as an insertion-ordered association
list.  Overwriting a key keeps its original position, as Python does. -/
abbrev Props := List (String × PropVal)

/-- Python `dict[key] = value`: replace in place, else append. -/
def dinsert {α : Type} (d : List (String × α)) (k : String) (v : α) : List (String × α) :=
  match d with
  | [] => [(k, v)]
  | (k', v') :: rest => if k' = k then (k, v) :: rest else (k', v') :: dinsert rest k v

/-- Python `dict.get(key)`. -/
def dlookup {α : Type} (d : List (String × α)) (k : String) : Option α :=
  match d with
  | [] => none
  | (k', v') :: rest => if k' = k then some v' else dlookup rest k

/-- `ExecuteStatement` / `UpdateStatement` inside a Manifest block
(genesis_parser.py:505-515). -/
inductive MStmt where
  | executeS (action : Expr)
  | updateS (target : Expr) (value : Option Expr)
deriving Repr

/-- `ManifestBlock` (genesis_parser.py:498-502). -/
structure ManifestB where
  condition : Expr
  statements : List MStmt
deriving Repr

/-- `ResonateBlock.properties` (genesis_parser.py:917-940): the parser only
ever writes the keys `threshold`, `alignment` and `synthesize`, so the dict
is represented by its three possible fields (repeated keys overwrite). -/
structure ResonateProps where
  threshold : Option Expr := none
  alignment : Option Expr := none
  synthesize : Option (List SynthMetric) := none
deriving Repr

/-- Statements inside a `Deliberate` block (genesis_parser.py:851-874):
proposals, synthesize blocks, and generic `identifier : expression` lines
(stored by the reference as plain dicts). -/
inductive DelibStmt where
  | proposalS (name : Option String) (properties : Props)
  | synthesizeS (metrics : List SynthMetric)
  | genericS (name : String) (value : Expr)
deriving Repr

/-- Statements of a Pulse body (`parse_pulse_statement`,
genesis_parser.py:829-842). -/
inductive PulseStmt where
  | watchS (target : Expr)
  | deliberateS (stmts : List DelibStmt)
  | resonateS (r : ResonateProps)
  | manifestS (m : ManifestB)
deriving Repr

/-- `PulseDefinition` (genesis_parser.py:449-453): the parameters dict holds
at most the key `interval`. -/
structure PulseDefinition where
  interval : Option String
  statements : List PulseStmt
deriving Repr

/-- `CovenantDeclaration` (genesis_parser.py:415-419). -/
structure CovenantDecl where
  name : String
  properties : Props
deriving Repr

/-- `AvatarDeclaration` (genesis_parser.py:422-426). -/
structure AvatarDecl where
  name : String
  properties : Props
deriving Repr

/-- `PantheonDeclaration` (genesis_parser.py:429-433). -/
structure PantheonDecl where
  name : String
  avatars : List AvatarDecl
deriving Repr

/-- `SoulDefinition` (genesis_parser.py:436-439). -/
structure SoulDef where
  properties : Props
deriving Repr

/-- `PurposeDefinition` (genesis_parser.py:442-446). -/
structure PurposeDef where
  name : String
  properties : Props
deriving Repr

/-- `DomainDeclaration` (genesis_parser.py:456-464).  Note the dataclass has
exactly these fields: `name`, `soul`, `purpose`, `intent`, `pulses`,
`pantheon` — in particular there is no `context` field. -/
structure DomainDecl where
  name : String
  soul : Option SoulDef := none
  purpose : Option PurposeDef := none
  intent : Option String := none
  pulses : List PulseDefinition := []
  pantheon : Option PantheonDecl := none
deriving Repr

/-- Top-level declarations `parse_declaration` can produce
(genesis_parser.py:608-623): Covenant, Pantheon, Domain or Decree. -/
inductive Declaration where
  | covenantD (c : CovenantDecl)
  | pantheonD (p : PantheonDecl)
  | domainD (d : DomainDecl)
  | decreeD (name : String) (properties : Props)
deriving Repr

/-- Parser errors: the `SyntaxError` raised by `Parser.expect`
(genesis_parser.py:587-595) carrying expected/found token types and the
found token's position, plus a fuel marker for the embedded recursion (the
Python parser can loop forever on some malformed inputs, e.g. an unclosed
argument list at end of input; running out of fuel corresponds to that
divergence and is never hit in the theorems below). -/
inductive ParseErr where
  | expectedErr (want : TokenType) (got : TokenType) (line col : ℕ)
  | fuelOut
deriving DecidableEq, Repr

/-- Parser state: the token list and current index (`Parser.tokens/pos`,
genesis_parser.py:563-565). -/
structure PState where
  tokens : List Token
  pos : ℕ
deriving Repr

/-- Placeholder token used only for the (unreachable for lexer-produced
streams) case of indexing into an empty token list, where Python's
`self.tokens[-1]` would raise `IndexError`; `tokenize` never returns an
empty list. -/
def dfltTok : Token := ⟨.EOF, .noneV, 0, 0⟩

/-- `Parser.current_token` (genesis_parser.py:567-571): the token at `pos`,
or the last token (EOF) when past the end. -/
def currentToken (st : PState) : Token :=
  if st.pos < st.tokens.length then st.tokens.getD st.pos dfltTok
  else st.tokens.getLastD dfltTok

/-- `Parser.advance` (genesis_parser.py:580-585): move forward unless already
at the last token. -/
def advanceP (st : PState) : PState :=
  if st.pos < st.tokens.length - 1 then ⟨st.tokens, st.pos + 1⟩ else st

/-- `Parser.expect` (genesis_parser.py:587-595): return the current token and
advance when its type matches, else raise. -/
def expectT (ty : TokenType) (st : PState) : Except ParseErr (Token × PState) :=
  let t := currentToken st
  if t.type = ty then .ok (t, advanceP st)
  else .error (.expectedErr ty t.type t.line t.col)

/-- String content of a token value as the parser uses it for names: keyword,
identifier and string tokens carry their lexeme; `str(None)` is `"None"`
(the fallback branch of `parse_primary` applied to EOF).  Number-valued
tokens never reach a name position in lexer-produced streams. -/
def pyStrOfVal : TokValue → String
  | .str s => s
  | .noneV => "None"
  | .num _ => ""

/-- Member name token acceptance (genesis_parser.py:1079-1085 and 1092-1097):
an identifier or one of the keywords usable as member names; anything else
goes through `expect(IDENTIFIER)` and raises. -/
def parseMemberName (st : PState) : Except ParseErr (String × PState) :=
  let t := currentToken st
  if t.type = .IDENTIFIER ∨ t.type = .STATE ∨ t.type = .DRIVE ∨ t.type = .VESSEL ∨
      t.type = .POTENTIALITY then
    .ok (pyStrOfVal t.value, advanceP st)
  else do
    let (tk, st') ← expectT .IDENTIFIER st
    .ok (pyStrOfVal tk.value, st')

/-- `Parser._member_access_to_string` (genesis_parser.py:1123-1128). -/
def memberAccessToString : MAccess → String
  | .baseDot o m => o ++ "." ++ m
  | .chainDot p m => memberAccessToString p ++ "." ++ m

mutual

/-- `Parser.parse_expression` (genesis_parser.py:1016-1018). -/
def parseExpression (fuel : ℕ) (st : PState) : Except ParseErr (Expr × PState) :=
  match fuel with
  | 0 => .error .fuelOut
  | f + 1 => parseComparison f st

/-- `Parser.parse_comparison` (genesis_parser.py:1020-1030): one optional,
non-associative relational operator. -/
def parseComparison (fuel : ℕ) (st : PState) : Except ParseErr (Expr × PState) :=
  match fuel with
  | 0 => .error .fuelOut
  | f + 1 => do
    let (left, st) ← parsePrimary f st
    let t := currentToken st
    if t.type = .GT ∨ t.type = .LT ∨ t.type = .GTE ∨ t.type = .LTE ∨ t.type = .EQ ∨
        t.type = .NEQ then
      let st := advanceP st
      let (right, st) ← parsePrimary f st
      .ok (.comparison t.type left right, st)
    else
      .ok (left, st)

/-- `Parser.parse_primary` (genesis_parser.py:1032-1059): literal, or a name
(identifier, identifier-like keyword, or `str(value)` fallback) optionally
followed by a call or member access. -/
def parsePrimary (fuel : ℕ) (st : PState) : Except ParseErr (Expr × PState) :=
  match fuel with
  | 0 => .error .fuelOut
  | f + 1 =>
    let t := currentToken st
    if t.type = .STRING then .ok (.literal t.value, advanceP st)
    else if t.type = .NUMBER then .ok (.literal t.value, advanceP st)
    else
      -- both the identifier-like branch (raw token value, always a string for
      -- these token types) and the `str(token.value)` fallback yield this name
      let name := pyStrOfVal t.value
      let st := advanceP st
      if (currentToken st).type = .LPAREN then parseFunctionCall f name st
      else if (currentToken st).type = .DOT then parseMemberAccess f name st
      else .ok (.ident name, st)

/-- `Parser.parse_function_call` (genesis_parser.py:1061-1073). -/
def parseFunctionCall (fuel : ℕ) (name : String) (st : PState) :
    Except ParseErr (Expr × PState) :=
  match fuel with
  | 0 => .error .fuelOut
  | f + 1 => do
    let (_, st) ← expectT .LPAREN st
    let (args, st) ← parseCallArgs f st []
    .ok (.funcCall name args, st)

/-- Argument loop shared by `parse_function_call` and
`parse_function_call_on_member`: expressions separated by optional commas,
until the closing parenthesis. -/
def parseCallArgs (fuel : ℕ) (st : PState) (acc : List Expr) :
    Except ParseErr (List Expr × PState) :=
  if (currentToken st).type = .RPAREN then do
    let (_, st') ← expectT .RPAREN st
    .ok (acc, st')
  else
    match fuel with
    | 0 => .error .fuelOut
    | f + 1 => do
      let (e, st) ← parseExpression f st
      let st := if (currentToken st).type = .COMMA then advanceP st else st
      parseCallArgs f st (acc ++ [e])

/-- `Parser.parse_member_access` (genesis_parser.py:1075-1104). -/
def parseMemberAccess (fuel : ℕ) (obj : String) (st : PState) :
    Except ParseErr (Expr × PState) :=
  match fuel with
  | 0 => .error .fuelOut
  | f + 1 => do
    let (_, st) ← expectT .DOT st
    let (mem, st) ← parseMemberName st
    let (ma, st) ← parseMemberChain f (.baseDot obj mem) st
    if (currentToken st).type = .LPAREN then parseFunctionCallOnMember f ma st
    else .ok (.member ma, st)

/-- Chaining loop of `parse_member_access` (genesis_parser.py:1090-1098). -/
def parseMemberChain (fuel : ℕ) (ma : MAccess) (st : PState) :
    Except ParseErr (MAccess × PState) :=
  if (currentToken st).type = .DOT then
    match fuel with
    | 0 => .error .fuelOut
    | f + 1 => do
      let st := advanceP st
      let (mem, st) ← parseMemberName st
      parseMemberChain f (.chainDot ma mem) st
  else
    .ok (ma, st)

/-- `Parser.parse_function_call_on_member` (genesis_parser.py:1106-1121):
argument list as usual, with the dotted path collapsed into one name. -/
def parseFunctionCallOnMember (fuel : ℕ) (ma : MAccess) (st : PState) :
    Except ParseErr (Expr × PState) :=
  match fuel with
  | 0 => .error .fuelOut
  | f + 1 => do
    let (_, st) ← expectT .LPAREN st
    let (args, st) ← parseCallArgs f st []
    .ok (.funcCall (memberAccessToString ma) args, st)

/-- `Parser.parse_watch` (genesis_parser.py:844-849): consume the
`Watch`/`Observe` token unconditionally, then `: expression`. -/
def parseWatch (fuel : ℕ) (st : PState) : Except ParseErr (PulseStmt × PState) :=
  match fuel with
  | 0 => .error .fuelOut
  | f + 1 => do
    let st := advanceP st
    let (_, st) ← expectT .COLON st
    let (target, st) ← parseExpression f st
    .ok (.watchS target, st)

/-- `Parser.parse_deliberate` (genesis_parser.py:851-874). -/
def parseDeliberate (fuel : ℕ) (st : PState) : Except ParseErr (PulseStmt × PState) :=
  match fuel with
  | 0 => .error .fuelOut
  | f + 1 => do
    let (_, st) ← expectT .DELIBERATE st
    let (_, st) ← expectT .LBRACE st
    let (stmts, st) ← parseDelibBody f st []
    .ok (.deliberateS stmts, st)

/-- Statement loop of `parse_deliberate`: proposals, synthesize blocks,
generic `identifier : expression` lines; any other token breaks out to the
closing-brace expectation. -/
def parseDelibBody (fuel : ℕ) (st : PState) (acc : List DelibStmt) :
    Except ParseErr (List DelibStmt × PState) :=
  if (currentToken st).type = .RBRACE then do
    let (_, st') ← expectT .RBRACE st
    .ok (acc, st')
  else
    match fuel with
    | 0 => .error .fuelOut
    | f + 1 =>
      let t := currentToken st
      if t.type = .PROPOSAL then do
        let (p, st') ← parseProposal f st
        parseDelibBody f st' (acc ++ [p])
      else if t.type = .SYNTHESIZE then do
        let (ms, st') ← parseSynthesize f st
        parseDelibBody f st' (acc ++ [.synthesizeS ms])
      else if t.type = .IDENTIFIER then do
        let name := pyStrOfVal t.value
        let st := advanceP st
        let (_, st) ← expectT .COLON st
        let (v, st) ← parseExpression f st
        parseDelibBody f st (acc ++ [.genericS name v])
      else do
        let (_, st') ← expectT .RBRACE st
        .ok (acc, st')

/-- `Parser.parse_proposal` (genesis_parser.py:876-896). -/
def parseProposal (fuel : ℕ) (st : PState) : Except ParseErr (DelibStmt × PState) :=
  match fuel with
  | 0 => .error .fuelOut
  | f + 1 => do
    let (_, st) ← expectT .PROPOSAL st
    let (name, st) :=
      if (currentToken st).type = .STRING then
        (some (pyStrOfVal (currentToken st).value), advanceP st)
      else (none, st)
    let (_, st) ← expectT .LBRACE st
    let (props, st) ← parseProposalBody f st []
    .ok (.proposalS name props, st)

/-- Property loop of `parse_proposal`: generic `identifier : expression`
properties only. -/
def parseProposalBody (fuel : ℕ) (st : PState) (props : Props) :
    Except ParseErr (Props × PState) :=
  if (currentToken st).type = .RBRACE then do
    let (_, st') ← expectT .RBRACE st
    .ok (props, st')
  else
    match fuel with
    | 0 => .error .fuelOut
    | f + 1 =>
      let t := currentToken st
      if t.type = .IDENTIFIER then do
        let name := pyStrOfVal t.value
        let st := advanceP st
        let (_, st) ← expectT .COLON st
        let (v, st) ← parseExpression f st
        parseProposalBody f st (dinsert props name (.expr v))
      else do
        let (_, st') ← expectT .RBRACE st
        .ok (props, st')

/-- `Parser.parse_synthesize` (genesis_parser.py:898-915). -/
def parseSynthesize (fuel : ℕ) (st : PState) :
    Except ParseErr (List SynthMetric × PState) :=
  match fuel with
  | 0 => .error .fuelOut
  | f + 1 => do
    let (_, st) ← expectT .SYNTHESIZE st
    let (_, st) ← expectT .LBRACE st
    parseSynthBody f st []

/-- Metric loop of `parse_synthesize`: `Metric : expression` entries or bare
string literals. -/
def parseSynthBody (fuel : ℕ) (st : PState) (acc : List SynthMetric) :
    Except ParseErr (List SynthMetric × PState) :=
  if (currentToken st).type = .RBRACE then do
    let (_, st') ← expectT .RBRACE st
    .ok (acc, st')
  else
    match fuel with
    | 0 => .error .fuelOut
    | f + 1 =>
      let t := currentToken st
      if t.type = .METRIC then do
        let st := advanceP st
        let (_, st) ← expectT .COLON st
        let (e, st) ← parseExpression f st
        parseSynthBody f st (acc ++ [.exprM e])
      else if t.type = .STRING then
        parseSynthBody f (advanceP st) (acc ++ [.strM (pyStrOfVal t.value)])
      else do
        let (_, st') ← expectT .RBRACE st
        .ok (acc, st')

/-- `Parser.parse_resonate` (genesis_parser.py:917-940). -/
def parseResonate (fuel : ℕ) (st : PState) : Except ParseErr (PulseStmt × PState) :=
  match fuel with
  | 0 => .error .fuelOut
  | f + 1 => do
    let (_, st) ← expectT .RESONATE st
    let (_, st) ← expectT .LBRACE st
    let (props, st) ← parseResonateBody f st {}
    .ok (.resonateS props, st)

/-- Property loop of `parse_resonate`: `Threshold`, `Alignment` and nested
`Synthesize` properties; any other token breaks out. -/
def parseResonateBody (fuel : ℕ) (st : PState) (props : ResonateProps) :
    Except ParseErr (ResonateProps × PState) :=
  if (currentToken st).type = .RBRACE then do
    let (_, st') ← expectT .RBRACE st
    .ok (props, st')
  else
    match fuel with
    | 0 => .error .fuelOut
    | f + 1 =>
      let t := currentToken st
      if t.type = .THRESHOLD then do
        let st := advanceP st
        let (_, st) ← expectT .COLON st
        let (e, st) ← parseExpression f st
        parseResonateBody f st { props with threshold := some e }
      else if t.type = .ALIGNMENT then do
        let st := advanceP st
        let (_, st) ← expectT .COLON st
        let (e, st) ← parseExpression f st
        parseResonateBody f st { props with alignment := some e }
      else if t.type = .SYNTHESIZE then do
        let (ms, st') ← parseSynthesize f st
        parseResonateBody f st' { props with synthesize := some ms }
      else do
        let (_, st') ← expectT .RBRACE st
        .ok (props, st')

/-- `Parser.parse_manifest` (genesis_parser.py:942-966): the literal sequence
`Manifest ( on <condition> ) { ... }` with only Execute/Update statements. -/
def parseManifest (fuel : ℕ) (st : PState) : Except ParseErr (PulseStmt × PState) :=
  match fuel with
  | 0 => .error .fuelOut
  | f + 1 => do
    let (_, st) ← expectT .MANIFEST st
    let (_, st) ← expectT .LPAREN st
    let (_, st) ← expectT .ON st
    let (cond, st) ← parseExpression f st
    let (_, st) ← expectT .RPAREN st
    let (_, st) ← expectT .LBRACE st
    let (stmts, st) ← parseManifestBody f st []
    .ok (.manifestS ⟨cond, stmts⟩, st)

/-- Statement loop of `parse_manifest`: `Execute` and `Update` only. -/
def parseManifestBody (fuel : ℕ) (st : PState) (acc : List MStmt) :
    Except ParseErr (List MStmt × PState) :=
  if (currentToken st).type = .RBRACE then do
    let (_, st') ← expectT .RBRACE st
    .ok (acc, st')
  else
    match fuel with
    | 0 => .error .fuelOut
    | f + 1 =>
      let t := currentToken st
      if t.type = .EXECUTE then do
        let (s, st') ← parseExecute f st
        parseManifestBody f st' (acc ++ [s])
      else if t.type = .UPDATE then do
        let (s, st') ← parseUpdate f st
        parseManifestBody f st' (acc ++ [s])
      else do
        let (_, st') ← expectT .RBRACE st
        .ok (acc, st')

/-- `Parser.parse_execute` (genesis_parser.py:968-973). -/
def parseExecute (fuel : ℕ) (st : PState) : Except ParseErr (MStmt × PState) :=
  match fuel with
  | 0 => .error .fuelOut
  | f + 1 => do
    let (_, st) ← expectT .EXECUTE st
    let (_, st) ← expectT .COLON st
    let (action, st) ← parseExpression f st
    .ok (.executeS action, st)

/-- `Parser.parse_update` (genesis_parser.py:975-986). -/
def parseUpdate (fuel : ℕ) (st : PState) : Except ParseErr (MStmt × PState) :=
  match fuel with
  | 0 => .error .fuelOut
  | f + 1 => do
    let (_, st) ← expectT .UPDATE st
    let (_, st) ← expectT .COLON st
    let (target, st) ← parseExpression f st
    if (currentToken st).type = .ARROW then do
      let st := advanceP st
      let (v, st) ← parseExpression f st
      .ok (.updateS target (some v), st)
    else
      .ok (.updateS target none, st)

/-- `Parser.parse_pulse_statement` (genesis_parser.py:829-842): dispatch on
the current token; `Watch`/`Observe`, `Deliberate`, `Resonate` and
`Manifest` parse a statement, anything else returns `None` without
consuming input. -/
def parsePulseStatement (fuel : ℕ) (st : PState) :
    Except ParseErr (Option PulseStmt × PState) :=
  let t := currentToken st
  if t.type = .WATCH ∨ t.type = .OBSERVE then
    match fuel with
    | 0 => .error .fuelOut
    | f + 1 => do
      let (s, st') ← parseWatch f st
      .ok (some s, st')
  else if t.type = .DELIBERATE then
    match fuel with
    | 0 => .error .fuelOut
    | f + 1 => do
      let (s, st') ← parseDeliberate f st
      .ok (some s, st')
  else if t.type = .RESONATE then
    match fuel with
    | 0 => .error .fuelOut
    | f + 1 => do
      let (s, st') ← parseResonate f st
      .ok (some s, st')
  else if t.type = .MANIFEST then
    match fuel with
    | 0 => .error .fuelOut
    | f + 1 => do
      let (s, st') ← parseManifest f st
      .ok (some s, st')
  else
    .ok (none, st)

/-- Statement loop of `parse_pulse` (genesis_parser.py:817-826): collect
statements while `parse_pulse_statement` succeeds; a `None` result breaks
the loop, after which `expect(RBRACE)` runs on the unchanged position. -/
def parsePulseBody (fuel : ℕ) (st : PState) (acc : List PulseStmt) :
    Except ParseErr (List PulseStmt × PState) :=
  if (currentToken st).type = .RBRACE then do
    let (_, st') ← expectT .RBRACE st
    .ok (acc, st')
  else
    match fuel with
    | 0 => .error .fuelOut
    | f + 1 =>
      match parsePulseStatement f st with
      | .error e => .error e
      | .ok (none, st') => do
        let (_, st'') ← expectT .RBRACE st'
        .ok (acc, st'')
      | .ok (some s, st') => parsePulseBody f st' (acc ++ [s])

/-- Parameter loop of `parse_pulse` (genesis_parser.py:803-813): only
`Interval : identifier` entries; any other token breaks out to the
closing-parenthesis expectation. -/
def parsePulseParams (fuel : ℕ) (st : PState) (iv : Option String) :
    Except ParseErr (Option String × PState) :=
  if (currentToken st).type = .RPAREN then do
    let (_, st') ← expectT .RPAREN st
    .ok (iv, st')
  else
    match fuel with
    | 0 => .error .fuelOut
    | f + 1 =>
      if (currentToken st).type = .INTERVAL then do
        let st := advanceP st
        let (_, st) ← expectT .COLON st
        let (tk, st) ← expectT .IDENTIFIER st
        parsePulseParams f st (some (pyStrOfVal tk.value))
      else do
        let (_, st') ← expectT .RPAREN st
        .ok (iv, st')

/-- `Parser.parse_pulse` (genesis_parser.py:798-827). -/
def parsePulse (fuel : ℕ) (st : PState) : Except ParseErr (PulseDefinition × PState) :=
  match fuel with
  | 0 => .error .fuelOut
  | f + 1 => do
    let (_, st) ← expectT .PULSE st
    let (iv, st) ←
      if (currentToken st).type = .LPAREN then parsePulseParams f (advanceP st) none
      else .ok (none, st)
    let (_, st) ← expectT .LBRACE st
    let (stmts, st) ← parsePulseBody f st []
    .ok (⟨iv, stmts⟩, st)

end

/-- Python truthiness for property values, used by `or`-fallbacks and
`if update.value:`-style tests: empty strings, zero and `None` are falsy,
AST objects are always truthy. -/
def pyTruthy : PropVal → Bool
  | .tokv (.str s) => s ≠ ""
  | .tokv (.num q) => q ≠ 0
  | .tokv .noneV => false
  | .expr _ => true

/-- States of the Potentiality engine (`PotentialityState` enum,
genesis_interpreter.py:74-80). -/
inductive PotState where
  | Unmanifested | Exploring | Dreaming | Manifesting | Transcending
deriving DecidableEq, Repr

/-- `PotentialityState(s)` as a partial lookup: the enum constructor raises
`ValueError` on unknown strings. -/
def stateFromString (s : String) : Option PotState :=
  match s with
  | "Unmanifested" => some .Unmanifested
  | "Exploring" => some .Exploring
  | "Dreaming" => some .Dreaming
  | "Manifesting" => some .Manifesting
  | "Transcending" => some .Transcending
  | _ => none

/-- Mutable state of `PotentialityEngine` (genesis_interpreter.py:198-201). -/
structure Potentiality where
  state : PotState := .Unmanifested
  drive : Option String := none
  aspiration_weight : TokValue := .num 1
  dream_cycle_active : Bool := false
deriving Repr

/-- `PotentialityEngine.update_state` (genesis_interpreter.py:204-210): set
the state when the value names a `PotentialityState`, otherwise warn and
leave it unchanged (`ValueError` is caught; a non-string value also raises
`ValueError` inside the enum constructor and is caught the same way). -/
def updateState (pot : Potentiality) (v : TokValue) : Potentiality :=
  match v with
  | .str s =>
    match stateFromString s with
    | some ps => { pot with state := ps }
    | none => pot
  | _ => pot

/-- Runtime domain-execution context dict (genesis_interpreter.py:509-523 and
the `resonance_threshold` key written by `_execute_resonate`). -/
structure Ctx where
  domain_name : Option String := none
  intent : Option String := none
  possibility_context : Option String := none
  resonance_threshold : Option TokValue := none
deriving Repr

/-- The proposal dict `{'type': 'manifest', 'context': context}` built by
`_execute_manifest` (genesis_interpreter.py:640). -/
structure Proposal where
  typeName : String
  context : Ctx
deriving Repr

/-- `DEFAULT_DEMO_RESONANCE_SCORE` (genesis_interpreter.py:54). -/
def DEFAULT_DEMO_RESONANCE_SCORE : ℚ := 92 / 100

/-- Runtime `Avatar` (genesis_interpreter.py:95-108): converted declaration
properties plus a weight defaulting to `1.0` (nothing in the repository ever
sets a different weight). -/
structure Avatar where
  name : String
  lineage : PropVal
  aura : PropVal
  essence : Option PropVal := none
  vessel : Option PropVal := none
  weight : ℚ := 1
deriving Repr

/-- `Avatar.score_proposal` (genesis_interpreter.py:110-124): the reference
scorer ignores proposal and context and returns the fixed demonstration
score. -/
def Avatar.scoreProposal (_a : Avatar) (_proposal : Proposal) (_context : Ctx) : ℚ :=
  DEFAULT_DEMO_RESONANCE_SCORE

/-- Avatar conversion performed by `_process_declaration` for Pantheon
declarations (genesis_interpreter.py:480-491): `aura` falls back to
`essence` (via Python `or`, so an empty `aura` also falls through) and then
to `"Balanced"`; `lineage` defaults to `"Unknown"`. -/
def avatarOfDecl (ad : AvatarDecl) : Avatar :=
  let essGet := (dlookup ad.properties "essence").getD (.tokv (.str "Balanced"))
  let aura :=
    match dlookup ad.properties "aura" with
    | some pv => if pyTruthy pv then pv else essGet
    | none => essGet
  { name := ad.name
    lineage := (dlookup ad.properties "lineage").getD (.tokv (.str "Unknown"))
    aura := aura
    essence := dlookup ad.properties "essence"
    vessel := dlookup ad.properties "vessel"
    weight := 1 }

/-- `ResonanceEngine.calculate_resonance` (genesis_interpreter.py:141-183):
an empty avatar list returns `0.0` immediately; otherwise the weighted
score and weight totals are accumulated in a loop, the base resonance is
their quotient (defined as `0.0` when the weight total is zero), and the
covenant veto multiplies by `1` or `0` according to
`resonance ≥ covenant_threshold`. -/
def calculateResonance (avatars : List Avatar) (proposal : Proposal) (context : Ctx)
    (covenant_threshold : ℚ) : ℚ :=
  match avatars with
  | [] => 0
  | _ :: _ =>
    let acc := avatars.foldl
      (fun (p : ℚ × ℚ) a => (p.1 + a.weight * a.scoreProposal proposal context, p.2 + a.weight))
      (0, 0)
    let resonance := if acc.2 = 0 then 0 else acc.1 / acc.2
    let veto : ℚ := if resonance ≥ covenant_threshold then 1 else 0
    resonance * veto

/-- The `MCPAdapter` tool registry (genesis_interpreter.py:348-392), reduced
to the set of registered tool names; handler bodies are irrelevant to the
dispatch contract verified here. -/
structure MCP where
  tools : List String
deriving Repr

/-- `MCPAdapter.__init__` registers the built-ins `mcp.call` and
`console.write` (genesis_interpreter.py:360-363). -/
def initMCP : MCP := ⟨["mcp.call", "console.write"]⟩

/-- `MCPAdapter.register_tool` (genesis_interpreter.py:389-392). -/
def registerTool (m : MCP) (name : String) : MCP := ⟨m.tools ++ [name]⟩

/-- Outcome of `MCPAdapter.call_tool` (genesis_interpreter.py:381-387): the
handler is invoked when the name is registered; otherwise a warning is
logged and the `None` sentinel is returned — no exception either way. -/
inductive ToolCallRes where
  | invoked (name : String)
  | notFoundSentinel (name : String)
deriving DecidableEq, Repr

/-- `MCPAdapter.call_tool`. -/
def callTool (m : MCP) (name : String) : ToolCallRes :=
  if name ∈ m.tools then .invoked name else .notFoundSentinel name

/-- Arguments passed to a dispatched tool by `_execute_action`
(genesis_interpreter.py:677-682): literal values are unwrapped, any other
expression is stringified. -/
inductive ToolArg where
  | lit (v : TokValue)
  | strRepr (e : Expr)
deriving Repr

/-- Argument conversion loop of `_execute_action`. -/
def convArg (e : Expr) : ToolArg :=
  match e with
  | .literal v => .lit v
  | e' => .strRepr e'

/-- Observable outcome of `_execute_action` (genesis_interpreter.py:672-686)
for one Execute action: a dispatch through the tool registry, silently no
effect at all (a `FunctionCall` whose name does not start with `mcp.` falls
through both `if`s), or a log-only line for a non-call action. -/
inductive ActionRes where
  | dispatched (name : String) (args : List ToolArg) (res : ToolCallRes)
  | silent
  | logged (a : Expr)
deriving Repr

/-- Python `str.startswith`, on the character lists of the two strings. -/
def pyStartsWith (s pre : String) : Bool :=
  pre.data.isPrefixOf s.data

/-- `GenesisRuntime._execute_action` (genesis_interpreter.py:672-686). -/
def executeAction (m : MCP) (action : Expr) : ActionRes :=
  match action with
  | .funcCall n args =>
    if pyStartsWith n "mcp." then .dispatched n (args.map convArg) (callTool m n)
    else .silent
  | a => .logged a

/-- Exceptions the runtime can raise: the `AttributeError` from reading the
missing `DomainDeclaration.context` attribute, the `TypeError` from
`max(float, non-number)` over covenant thresholds, and the `TypeError` from
comparing the resonance float with a non-number stored threshold. -/
inductive PyErr where
  | attributeError (cls attr : String)
  | typeErrorMax
  | typeErrorCompare
deriving DecidableEq, Repr

/-- Covenant-threshold maximum loop of `_execute_manifest`
(genesis_interpreter.py:643-646): fold `max` over every registered
covenant's `threshold` property, starting from `0.0`; a non-numeric stored
threshold makes Python's `max` raise `TypeError`. -/
def covThresholdAux (ct : ℚ) : List (String × CovenantDecl) → Except PyErr ℚ
  | [] => .ok ct
  | (_, c) :: rest =>
    match dlookup c.properties "threshold" with
    | none => covThresholdAux ct rest
    | some (.tokv (.num q)) => covThresholdAux (max ct q) rest
    | some _ => .error .typeErrorMax

/-- Covenant veto threshold for a Manifest evaluation. -/
def covThreshold (covs : List (String × CovenantDecl)) : Except PyErr ℚ :=
  covThresholdAux 0 covs

/-- Advisory compliance collaborator, abstracted to its boolean-returning
interface (`validate_covenant_compliance` / `validate_execution_compliance`,
compliance.py:376-421): any total pair of predicates; the repository's
`ComplianceManager` is one instantiation. -/
structure Oracle where
  covenantOk : String → PropVal → Bool
  executionOk : String → ℚ → Bool

/-- Audit-trail events recorded by the compliance hooks (the only place the
hooks' boolean results flow). -/
inductive AuditEv where
  | covenantValidated (name : String) (threshold : PropVal) (result : Bool)
  | execValidated (domain : String) (resonance : ℚ) (result : Bool)

/-- Registries and engines of `GenesisRuntime` (genesis_interpreter.py:
411-421).  The `possibilities` registry is omitted: it can only be populated
by the `PossibilityDeclaration` branch of `_process_declaration`, and
`genesis_parser.py` defines no such class (the interpreter's import of it
fails), so the registry is forever empty. -/
structure RT where
  covenants : List (String × CovenantDecl) := []
  pantheons : List (String × List Avatar) := []
  domains : List (String × DomainDecl) := []
  potentiality : Potentiality := {}
  mcp : MCP := initMCP

/-- Effects of the statements a Manifest block runs, in order: one entry per
executed `Execute`/`Update` statement. -/
inductive Effect where
  | execEff (action : Expr) (r : ActionRes)
  | updEff (target : Expr) (value : Option Expr)

/-- `GenesisRuntime._execute_update` (genesis_interpreter.py:688-698): with a
(truthy, i.e. present) value, the single special case `Potentiality.State ->
<literal>` updates the Potentiality state; every other target is only
logged. -/
def executeUpdatePot (pot : Potentiality) (target : Expr) (value : Option Expr) :
    Potentiality :=
  match value with
  | none => pot
  | some v =>
    match target, v with
    | .member (.baseDot ob mb), .literal lv =>
      if ob = "Potentiality" ∧ mb = "State" then updateState pot lv else pot
    | _, _ => pot

/-- Statement loop of `_execute_manifest`'s manifesting branch
(genesis_interpreter.py:663-667): execute each statement in order, threading
the Potentiality state through updates. -/
def runManifestStmts (m : MCP) (pot : Potentiality) :
    List MStmt → List Effect × Potentiality
  | [] => ([], pot)
  | .executeS a :: rest =>
    let r := runManifestStmts m pot rest
    (.execEff a (executeAction m a) :: r.1, r.2)
  | .updateS t v :: rest =>
    let r := runManifestStmts m (executeUpdatePot pot t v) rest
    (.updEff t v :: r.1, r.2)

/-- `GenesisRuntime._execute_resonate` (genesis_interpreter.py:594-614):
when the `threshold` property is a `FunctionCall` with at least one argument
whose first argument is a `Literal`, store that literal's value in the
context under `resonance_threshold`; otherwise the context is unchanged
(the `synthesize` property is display-only). -/
def executeResonate (r : ResonateProps) (ctx : Ctx) : Ctx :=
  match r.threshold with
  | some (.funcCall _ (arg :: _)) =>
    match arg with
    | .literal v => { ctx with resonance_threshold := some v }
    | _ => ctx
  | _ => ctx

/-- `GenesisRuntime._execute_manifest` (genesis_interpreter.py:627-670):
read the pulse threshold from the context (default `0.9`), flatten all
avatars of all registered pantheons, take the maximum covenant threshold,
compute the resonance, call the compliance hook when a manager is attached
(its boolean result goes only to the audit trail), and run the statements
iff the resonance meets the threshold.  A non-number stored threshold makes
the `>=` comparison raise `TypeError`. -/
def executeManifest (rt : RT) (o : Option Oracle) (mb : ManifestB) (ctx : Ctx) :
    List AuditEv × Except PyErr (List Effect × Potentiality) :=
  let threshold := ctx.resonance_threshold.getD (.num (9 / 10))
  let all_avatars := rt.pantheons.foldl (fun acc p => acc ++ p.2) []
  let proposal : Proposal := ⟨"manifest", ctx⟩
  match covThreshold rt.covenants with
  | .error e => ([], .error e)
  | .ok ct =>
    let resonance := calculateResonance all_avatars proposal ctx ct
    let audit :=
      match o with
      | some c =>
        let dn := ctx.domain_name.getD "Unknown"
        [.execValidated dn resonance (c.executionOk dn resonance)]
      | none => []
    match threshold with
    | .num q =>
      if resonance ≥ q then (audit, .ok (runManifestStmts rt.mcp rt.potentiality mb.statements))
      else (audit, .ok ([], rt.potentiality))
    | _ => (audit, .error .typeErrorCompare)

/-- `GenesisRuntime._process_declaration` (genesis_interpreter.py:441-499):
populate the registry matching the declaration kind (last write wins via
dict assignment); covenant registration calls the compliance hook with the
covenant's threshold (default `0.0`), whose boolean result goes only to the
audit trail.  A Decree matches no `isinstance` branch and is ignored.  The
`PossibilityDeclaration` branch is unreachable (the class does not exist in
genesis_parser.py) and is therefore not modelled. -/
def processDeclaration (rt : RT) (o : Option Oracle) (d : Declaration) :
    RT × List AuditEv :=
  match d with
  | .covenantD c =>
    let thr := (dlookup c.properties "threshold").getD (.tokv (.num 0))
    let audit :=
      match o with
      | some f => [.covenantValidated c.name thr (f.covenantOk c.name thr)]
      | none => []
    ({ rt with covenants := dinsert rt.covenants c.name c }, audit)
  | .pantheonD p =>
    ({ rt with pantheons := dinsert rt.pantheons p.name (p.avatars.map avatarOfDecl) }, [])
  | .domainD dd =>
    ({ rt with domains := dinsert rt.domains dd.name dd }, [])
  | .decreeD _ _ => (rt, [])

/-- `GenesisRuntime._execute_domain` (genesis_interpreter.py:501-539).
Lines 509-513 build the context record; line 515 then evaluates
`if domain.context:` — but the parser's `DomainDeclaration`
(genesis_parser.py:456-464) declares no field `context` and nothing ever
assigns one, so Python attribute lookup raises `AttributeError` there,
before the inline-pantheon merge, Soul initialization and pulse execution
(lines 525-539) can run. -/
def executeDomain (_rt : RT) (_o : Option Oracle) (d : DomainDecl) :
    List AuditEv × Except PyErr (RT × List Effect) :=
  let _ctx : Ctx := { domain_name := some d.name, intent := d.intent }
  ([], .error (.attributeError "DomainDeclaration" "context"))


/-- The single-statement effect a Manifest run produces, per statement: the
statement's observable outcome, independent of the Potentiality threading
(`_execute_manifest`'s loop body, genesis_interpreter.py:663-667). -/
def manifestEffect (m : MCP) : MStmt → Effect
  | .executeS a => .execEff a (executeAction m a)
  | .updateS t v => .updEff t v

/-- Concrete fixtures for the witnesses and counterexamples below. -/
def avSage : Avatar :=
  { name := "Sage", lineage := .tokv (.str "Philosophy"), aura := .tokv (.str "Wisdom") }

def rtOnePantheon : RT := { pantheons := [("Guardians", [avSage])] }

def mbTwoStatements : ManifestB :=
  ⟨.ident "resonance",
   [.executeS (.ident "act"),
    .updateS (.member (.baseDot "Potentiality" "State")) (some (.literal (.str "Manifesting")))]⟩

def ctxDomainD : Ctx := { domain_name := some "D" }

def resonateStringThreshold : ResonateProps :=
  { threshold := some (.funcCall "Custom_Fn" [.literal (.str "x")]) }


/-- The token stream of the source `Pulse \x7b Execute` (brace written as its
code point), as `tokenize` produces it. -/
def pulseTruncTokens : List Token :=
  [⟨.PULSE, .str "Pulse", 1, 1⟩, ⟨.LBRACE, .str "\x7b", 1, 7⟩,
   ⟨.EXECUTE, .str "Execute", 1, 9⟩, ⟨.EOF, .noneV, 1, 16⟩]

/-- A Resonate block whose `Threshold` property is the call
`Stability_Fn(0.9)`. -/
def resonateNumThreshold : ResonateProps :=
  { threshold := some (.funcCall "Stability_Fn" [.literal (.num (9 / 10))]) }

/-- The characters matched by some rule of the `tokenize` loop body: the
skipped whitespace classes, comment/newline starters, string quotes, the
number and identifier starters per the Unicode-aware class parameters, and
the operator/delimiter characters of genesis_parser.py:331-391.  Any other
character reaches the final `else` and raises. -/
def recognizedChar (cc : CharClasses) (c : Char) : Bool :=
  c = ' ' || c = '\t' || c = '\r' || c = '#' || c = '\n' || c = '"' || c = '\'' ||
  cc.isDigit c || cc.isAlpha c || c = '_' ||
  c = '{' || c = '}' || c = '(' || c = ')' || c = ':' || c = ',' || c = '.' ||
  c = '>' || c = '<' || c = '=' || c = '!' || c = '-'

/-! Lemmas about the lexer, leading up to the claims below. -/

theorem keywordType_ne_eof (s : String) : keywordType s ≠ .EOF := by
  have aux : ∀ (l : List (String × TokenType)), (∀ p ∈ l, p.2 ≠ .EOF) →
      keywordLookup s l ≠ .EOF := by
    intro l
    induction l with
    | nil => intro _; simp only [keywordLookup]; decide
    | cons p rest ih =>
      obtain ⟨k, t⟩ := p
      intro hall
      simp only [keywordLookup]
      split
      · exact hall (k, t) (List.mem_cons_self _ _)
      · exact ih (fun q hq => hall q (List.mem_cons_of_mem _ hq))
  exact aux KEYWORDS (by decide)

theorem lexOp_tok_type_ne_eof {c : Char} {cs : List Char} {l k : ℕ} {t : Token}
    {st' : LexState} (h : lexOp c cs l k = .tokR t st') : t.type ≠ .EOF := by
  unfold lexOp at h
  by_cases h1 : c = '{'
  · rw [if_pos h1] at h; cases h; exact fun hc => TokenType.noConfusion hc
  rw [if_neg h1] at h
  by_cases h2 : c = '}'
  · rw [if_pos h2] at h; cases h; exact fun hc => TokenType.noConfusion hc
  rw [if_neg h2] at h
  by_cases h3 : c = '('
  · rw [if_pos h3] at h; cases h; exact fun hc => TokenType.noConfusion hc
  rw [if_neg h3] at h
  by_cases h4 : c = ')'
  · rw [if_pos h4] at h; cases h; exact fun hc => TokenType.noConfusion hc
  rw [if_neg h4] at h
  by_cases h5 : c = ':'
  · rw [if_pos h5] at h; cases h; exact fun hc => TokenType.noConfusion hc
  rw [if_neg h5] at h
  by_cases h6 : c = ','
  · rw [if_pos h6] at h; cases h; exact fun hc => TokenType.noConfusion hc
  rw [if_neg h6] at h
  by_cases h7 : c = '.'
  · rw [if_pos h7] at h; cases h; exact fun hc => TokenType.noConfusion hc
  rw [if_neg h7] at h
  by_cases h8 : c = '>'
  · rw [if_pos h8] at h
    by_cases hp : cs.head? = some '='
    · rw [if_pos hp] at h; cases h; exact fun hc => TokenType.noConfusion hc
    · rw [if_neg hp] at h; cases h; exact fun hc => TokenType.noConfusion hc
  rw [if_neg h8] at h
  by_cases h9 : c = '<'
  · rw [if_pos h9] at h
    by_cases hp : cs.head? = some '='
    · rw [if_pos hp] at h; cases h; exact fun hc => TokenType.noConfusion hc
    · rw [if_neg hp] at h; cases h; exact fun hc => TokenType.noConfusion hc
  rw [if_neg h9] at h
  by_cases h10 : c = '='
  · rw [if_pos h10] at h
    by_cases hp : cs.head? = some '='
    · rw [if_pos hp] at h; cases h; exact fun hc => TokenType.noConfusion hc
    · rw [if_neg hp] at h; exact LexStepRes.noConfusion h
  rw [if_neg h10] at h
  by_cases h11 : c = '!'
  · rw [if_pos h11] at h
    by_cases hp : cs.head? = some '='
    · rw [if_pos hp] at h; cases h; exact fun hc => TokenType.noConfusion hc
    · rw [if_neg hp] at h; exact LexStepRes.noConfusion h
  rw [if_neg h11] at h
  by_cases h12 : c = '-'
  · rw [if_pos h12] at h
    by_cases hp : cs.head? = some '>'
    · rw [if_pos hp] at h; cases h; exact fun hc => TokenType.noConfusion hc
    · rw [if_neg hp] at h; exact LexStepRes.noConfusion h
  rw [if_neg h12] at h
  exact LexStepRes.noConfusion h

theorem lexCore_tok_type_ne_eof {cc : CharClasses} {c : Char} {cs : List Char} {l k : ℕ}
    {t : Token} {st' : LexState} (h : lexCore cc c cs l k = .tokR t st') : t.type ≠ .EOF := by
  unfold lexCore at h
  by_cases h1 : c = '#'
  · rw [if_pos h1] at h; exact LexStepRes.noConfusion h
  rw [if_neg h1] at h
  by_cases h2 : c = '\n'
  · rw [if_pos h2] at h; exact LexStepRes.noConfusion h
  rw [if_neg h2] at h
  by_cases h3 : c = '"' ∨ c = '\''
  · rw [if_pos h3] at h
    rcases hr : readStringAux c cs l (k + 1) with e | ⟨chars, st2⟩ <;> rw [hr] at h
    · exact LexStepRes.noConfusion h
    · cases h; exact fun hc => TokenType.noConfusion hc
  rw [if_neg h3] at h
  by_cases h4 : cc.isDigit c = true
  · rw [if_pos h4] at h; cases h; exact fun hc => TokenType.noConfusion hc
  rw [if_neg h4] at h
  by_cases h5 : cc.isAlpha c = true ∨ c = '_'
  · rw [if_pos h5] at h; cases h; exact keywordType_ne_eof _
  rw [if_neg h5] at h
  exact lexOp_tok_type_ne_eof h

theorem lexStep_tok_type_ne_eof {cc : CharClasses} {st : LexState} {t : Token}
    {st' : LexState} (h : lexStep cc st = .tokR t st') : t.type ≠ .EOF := by
  unfold lexStep at h
  rcases hw : skipWs st.rest st.line st.col with ⟨rest, l, k⟩
  rw [hw] at h
  rcases rest with _ | ⟨c, cs⟩
  · exact LexStepRes.noConfusion h
  · exact lexCore_tok_type_ne_eof h

theorem tokenizeAux_ok_shape (cc : CharClasses) :
    ∀ (f : ℕ) (st : LexState) (acc ts : List Token),
      tokenizeAux cc f st acc = some (.ok ts) →
      ∃ (mid : List Token) (l k : ℕ),
        ts = acc ++ mid ++ [⟨.EOF, .noneV, l, k⟩] ∧ ∀ t ∈ mid, t.type ≠ .EOF := by
  intro f
  induction f with
  | zero => intro st acc ts h; exact absurd h (by simp [tokenizeAux])
  | succ f ih =>
    intro st acc ts h
    unfold tokenizeAux at h
    rcases he : lexStep cc st with ⟨l, k⟩ | e | ⟨t, st'⟩ | st' <;> rw [he] at h
    · refine ⟨[], l, k, ?_, by simp⟩
      simp only [Option.some.injEq] at h
      cases h with
      | refl => simp
    · simp at h
    · obtain ⟨mid, l, k, hts, hmid⟩ := ih st' (acc ++ [t]) ts h
      refine ⟨t :: mid, l, k, by simpa [List.append_assoc] using hts, ?_⟩
      intro x hx
      rcases List.mem_cons.mp hx with rfl | hx2
      · exact lexStep_tok_type_ne_eof he
      · exact hmid x hx2
    · exact ih st' acc ts h

theorem skipWs_len (rest : List Char) : ∀ l k, (skipWs rest l k).rest.length ≤ rest.length := by
  induction rest with
  | nil => intro l k; simp [skipWs]
  | cons c cs ih =>
    intro l k
    simp only [skipWs]
    split
    · exact le_trans (ih _ _) (by simp)
    · exact le_refl _

theorem skipLineComment_len (rest : List Char) :
    ∀ l k, (skipLineComment rest l k).rest.length ≤ rest.length := by
  induction rest with
  | nil => intro l k; simp [skipLineComment]
  | cons c cs ih =>
    intro l k
    simp only [skipLineComment]
    split
    · exact le_refl _
    · exact le_trans (ih _ _) (by simp)

theorem skipBlockComment_len (rest : List Char) (l k : ℕ) :
    (skipBlockComment rest l k).rest.length ≤ rest.length := by
  induction rest, l, k using skipBlockComment.induct <;> simp_all [skipBlockComment] <;> omega

theorem skipComment_len (cs : List Char) (l k : ℕ) :
    (skipComment ('#' :: cs) l k).rest.length ≤ cs.length := by
  unfold skipComment
  split
  · rename_i rest heq
    have hcs : cs = '#' :: '#' :: rest := by injection heq
    subst hcs
    refine le_trans (skipBlockComment_len _ _ _) ?_
    simp
    omega
  · rename_i cs2 hno heq
    injection heq with g1 g2
    subst g2
    exact skipLineComment_len _ _ _
  · rename_i hno1 hno2
    exact (hno2 cs rfl).elim

theorem readStringAux_len (q : Char) :
    ∀ (rest : List Char) (l k : ℕ) (chars : List Char) (st' : LexState),
      readStringAux q rest l k = .ok (chars, st') → st'.rest.length ≤ rest.length := by
  have main : ∀ (n : ℕ) (rest : List Char), rest.length ≤ n →
      ∀ (l k : ℕ) (chars : List Char) (st' : LexState),
        readStringAux q rest l k = .ok (chars, st') → st'.rest.length ≤ rest.length := by
    intro n
    induction n with
    | zero =>
      intro rest hlen l k chars st' h
      have hr : rest = [] := List.eq_nil_of_length_eq_zero (Nat.le_zero.mp hlen)
      subst hr
      simp only [readStringAux] at h
      cases h
      simp
    | succ n ih =>
      intro rest hlen l k chars st' h
      rcases rest with _ | ⟨c, cs⟩
      · simp only [readStringAux] at h
        cases h
        simp
      · rw [readStringAux.eq_def] at h
        simp only [] at h
        by_cases h1 : c = q
        · rw [if_pos h1] at h
          cases h
          simp
        · rw [if_neg h1] at h
          by_cases h2 : c = '\\'
          · rw [if_pos h2] at h
            rcases cs with _ | ⟨e, cs2⟩
            · exact Except.noConfusion h
            · simp only [] at h
              rcases hr : readStringAux q cs2 (stepPos e (stepPos c l k).1 (stepPos c l k).2).1
                  (stepPos e (stepPos c l k).1 (stepPos c l k).2).2 with er | ⟨rc, st2⟩ <;>
                rw [hr] at h
              · exact Except.noConfusion h
              · cases h
                have hb := ih cs2 (by simp at hlen; omega) _ _ _ _ hr
                simp
                omega
          · rw [if_neg h2] at h
            rcases hr : readStringAux q cs (stepPos c l k).1 (stepPos c l k).2 with er | ⟨rc, st2⟩ <;>
              rw [hr] at h
            · exact Except.noConfusion h
            · cases h
              have hb := ih cs (by simp at hlen; omega) _ _ _ _ hr
              simp
              omega
  intro rest l k chars st' h
  exact main rest.length rest (le_refl _) l k chars st' h

theorem readNumberAux_len (cc : CharClasses) (b : Bool) (rest : List Char) :
    ∀ (l k : ℕ), ((readNumberAux cc b rest l k).2).rest.length ≤ rest.length := by
  induction rest generalizing b with
  | nil => intro l k; simp [readNumberAux]
  | cons c cs ih =>
    intro l k
    simp only [readNumberAux]
    split_ifs with h1 h2 h3
    · simp
    · exact le_trans (ih _ _ _) (by simp)
    · exact le_trans (ih _ _ _) (by simp)
    · simp

theorem readIdentAux_len (cc : CharClasses) (rest : List Char) :
    ∀ (l k : ℕ), ((readIdentAux cc rest l k).2).rest.length ≤ rest.length := by
  induction rest with
  | nil => intro l k; simp [readIdentAux]
  | cons c cs ih =>
    intro l k
    simp only [readIdentAux]
    split_ifs with h1
    · exact le_trans (ih _ _) (by simp)
    · simp


theorem lexOp_tok_lt {c : Char} {cs : List Char} {l k : ℕ} {t : Token} {st' : LexState}
    (h : lexOp c cs l k = .tokR t st') : st'.rest.length < (c :: cs).length := by
  unfold lexOp at h
  by_cases h1 : c = '{'
  · rw [if_pos h1] at h; cases h; simp
  rw [if_neg h1] at h
  by_cases h2 : c = '}'
  · rw [if_pos h2] at h; cases h; simp
  rw [if_neg h2] at h
  by_cases h3 : c = '('
  · rw [if_pos h3] at h; cases h; simp
  rw [if_neg h3] at h
  by_cases h4 : c = ')'
  · rw [if_pos h4] at h; cases h; simp
  rw [if_neg h4] at h
  by_cases h5 : c = ':'
  · rw [if_pos h5] at h; cases h; simp
  rw [if_neg h5] at h
  by_cases h6 : c = ','
  · rw [if_pos h6] at h; cases h; simp
  rw [if_neg h6] at h
  by_cases h7 : c = '.'
  · rw [if_pos h7] at h; cases h; simp
  rw [if_neg h7] at h
  by_cases h8 : c = '>'
  · rw [if_pos h8] at h
    by_cases hp : cs.head? = some '='
    · rw [if_pos hp] at h; cases h; simp; omega
    · rw [if_neg hp] at h; cases h; simp
  rw [if_neg h8] at h
  by_cases h9 : c = '<'
  · rw [if_pos h9] at h
    by_cases hp : cs.head? = some '='
    · rw [if_pos hp] at h; cases h; simp; omega
    · rw [if_neg hp] at h; cases h; simp
  rw [if_neg h9] at h
  by_cases h10 : c = '='
  · rw [if_pos h10] at h
    by_cases hp : cs.head? = some '='
    · rw [if_pos hp] at h; cases h; simp; omega
    · rw [if_neg hp] at h; exact LexStepRes.noConfusion h
  rw [if_neg h10] at h
  by_cases h11 : c = '!'
  · rw [if_pos h11] at h
    by_cases hp : cs.head? = some '='
    · rw [if_pos hp] at h; cases h; simp; omega
    · rw [if_neg hp] at h; exact LexStepRes.noConfusion h
  rw [if_neg h11] at h
  by_cases h12 : c = '-'
  · rw [if_pos h12] at h
    by_cases hp : cs.head? = some '>'
    · rw [if_pos hp] at h; cases h; simp; omega
    · rw [if_neg hp] at h; exact LexStepRes.noConfusion h
  rw [if_neg h12] at h
  exact LexStepRes.noConfusion h

theorem lexCore_tok_lt {cc : CharClasses} {c : Char} {cs : List Char} {l k : ℕ}
    {t : Token} {st' : LexState}
    (h : lexCore cc c cs l k = .tokR t st') : st'.rest.length < (c :: cs).length := by
  unfold lexCore at h
  by_cases h1 : c = '#'
  · rw [if_pos h1] at h; exact LexStepRes.noConfusion h
  rw [if_neg h1] at h
  by_cases h2 : c = '\n'
  · rw [if_pos h2] at h; exact LexStepRes.noConfusion h
  rw [if_neg h2] at h
  by_cases h3 : c = '"' ∨ c = '\''
  · rw [if_pos h3] at h
    rcases hr : readStringAux c cs l (k + 1) with e | ⟨chars, st2⟩ <;> rw [hr] at h
    · exact LexStepRes.noConfusion h
    · have hlen := readStringAux_len c cs l (k + 1) chars st2 hr
      cases h
      simp
      omega
  rw [if_neg h3] at h
  by_cases h4 : cc.isDigit c = true
  · rw [if_pos h4] at h
    cases h
    simp only [readNumberAux]
    rw [if_pos (Or.inl h4)]
    by_cases hdot : c = '.'
    · rw [if_pos hdot]
      simp only [Bool.false_eq_true, if_false]
      have := readNumberAux_len cc true cs l (k + 1)
      simp
      omega
    · rw [if_neg hdot]
      have := readNumberAux_len cc false cs l (k + 1)
      simp
      omega
  rw [if_neg h4] at h
  by_cases h5 : cc.isAlpha c = true ∨ c = '_'
  · rw [if_pos h5] at h
    cases h
    have hcond : (cc.isAlnum c = true ∨ c = '_') := by
      rcases h5 with ha | hu
      · left; exact cc.alpha_alnum c ha
      · right; exact hu
    simp only [readIdentAux]
    rw [if_pos hcond]
    have := readIdentAux_len cc cs l (k + 1)
    simp
    omega
  rw [if_neg h5] at h
  exact lexOp_tok_lt h

theorem lexOp_no_skip {c : Char} {cs : List Char} {l k : ℕ} {st' : LexState}
    (h : lexOp c cs l k = .skipR st') : False := by
  unfold lexOp at h
  by_cases g1 : c = '{'
  · rw [if_pos g1] at h; exact LexStepRes.noConfusion h
  rw [if_neg g1] at h
  by_cases g2 : c = '}'
  · rw [if_pos g2] at h; exact LexStepRes.noConfusion h
  rw [if_neg g2] at h
  by_cases g3 : c = '('
  · rw [if_pos g3] at h; exact LexStepRes.noConfusion h
  rw [if_neg g3] at h
  by_cases g4 : c = ')'
  · rw [if_pos g4] at h; exact LexStepRes.noConfusion h
  rw [if_neg g4] at h
  by_cases g5 : c = ':'
  · rw [if_pos g5] at h; exact LexStepRes.noConfusion h
  rw [if_neg g5] at h
  by_cases g6 : c = ','
  · rw [if_pos g6] at h; exact LexStepRes.noConfusion h
  rw [if_neg g6] at h
  by_cases g7 : c = '.'
  · rw [if_pos g7] at h; exact LexStepRes.noConfusion h
  rw [if_neg g7] at h
  by_cases g8 : c = '>'
  · rw [if_pos g8] at h
    by_cases hp : cs.head? = some '='
    · rw [if_pos hp] at h; exact LexStepRes.noConfusion h
    · rw [if_neg hp] at h; exact LexStepRes.noConfusion h
  rw [if_neg g8] at h
  by_cases g9 : c = '<'
  · rw [if_pos g9] at h
    by_cases hp : cs.head? = some '='
    · rw [if_pos hp] at h; exact LexStepRes.noConfusion h
    · rw [if_neg hp] at h; exact LexStepRes.noConfusion h
  rw [if_neg g9] at h
  by_cases g10 : c = '='
  · rw [if_pos g10] at h
    by_cases hp : cs.head? = some '='
    · rw [if_pos hp] at h; exact LexStepRes.noConfusion h
    · rw [if_neg hp] at h; exact LexStepRes.noConfusion h
  rw [if_neg g10] at h
  by_cases g11 : c = '!'
  · rw [if_pos g11] at h
    by_cases hp : cs.head? = some '='
    · rw [if_pos hp] at h; exact LexStepRes.noConfusion h
    · rw [if_neg hp] at h; exact LexStepRes.noConfusion h
  rw [if_neg g11] at h
  by_cases g12 : c = '-'
  · rw [if_pos g12] at h
    by_cases hp : cs.head? = some '>'
    · rw [if_pos hp] at h; exact LexStepRes.noConfusion h
    · rw [if_neg hp] at h; exact LexStepRes.noConfusion h
  rw [if_neg g12] at h
  exact LexStepRes.noConfusion h

theorem lexCore_skip_lt {cc : CharClasses} {c : Char} {cs : List Char} {l k : ℕ}
    {st' : LexState}
    (h : lexCore cc c cs l k = .skipR st') : st'.rest.length < (c :: cs).length := by
  unfold lexCore at h
  by_cases h1 : c = '#'
  · rw [if_pos h1] at h
    subst h1
    cases h
    have := skipComment_len cs l k
    simp
    omega
  rw [if_neg h1] at h
  by_cases h2 : c = '\n'
  · rw [if_pos h2] at h; cases h; simp
  rw [if_neg h2] at h
  by_cases h3 : c = '"' ∨ c = '\''
  · rw [if_pos h3] at h
    rcases hr : readStringAux c cs l (k + 1) with e | ⟨chars, st2⟩ <;> rw [hr] at h <;>
      exact LexStepRes.noConfusion h
  rw [if_neg h3] at h
  by_cases h4 : cc.isDigit c = true
  · rw [if_pos h4] at h; exact LexStepRes.noConfusion h
  rw [if_neg h4] at h
  by_cases h5 : cc.isAlpha c = true ∨ c = '_'
  · rw [if_pos h5] at h; exact LexStepRes.noConfusion h
  rw [if_neg h5] at h
  exact (lexOp_no_skip h).elim

theorem lexStep_tok_lt {cc : CharClasses} {st : LexState} {t : Token} {st' : LexState}
    (h : lexStep cc st = .tokR t st') : st'.rest.length < st.rest.length := by
  unfold lexStep at h
  rcases hw : skipWs st.rest st.line st.col with ⟨rest, l, k⟩
  rw [hw] at h
  have hle : rest.length ≤ st.rest.length := by
    have := skipWs_len st.rest st.line st.col
    rw [hw] at this
    simpa using this
  rcases rest with _ | ⟨c, cs⟩
  · exact LexStepRes.noConfusion h
  · exact lt_of_lt_of_le (lexCore_tok_lt h) hle

theorem lexStep_skip_lt {cc : CharClasses} {st : LexState} {st' : LexState}
    (h : lexStep cc st = .skipR st') : st'.rest.length < st.rest.length := by
  unfold lexStep at h
  rcases hw : skipWs st.rest st.line st.col with ⟨rest, l, k⟩
  rw [hw] at h
  have hle : rest.length ≤ st.rest.length := by
    have := skipWs_len st.rest st.line st.col
    rw [hw] at this
    simpa using this
  rcases rest with _ | ⟨c, cs⟩
  · exact LexStepRes.noConfusion h
  · exact lt_of_lt_of_le (lexCore_skip_lt h) hle

theorem tokenizeAux_isSome (cc : CharClasses) :
    ∀ (f : ℕ) (st : LexState) (acc : List Token),
      st.rest.length < f → (tokenizeAux cc f st acc).isSome := by
  intro f
  induction f with
  | zero => intro st acc h; exact absurd h (Nat.not_lt_zero _)
  | succ f ih =>
    intro st acc h
    unfold tokenizeAux
    rcases he : lexStep cc st with ⟨l, k⟩ | e | ⟨t, st'⟩ | st'
    · simp
    · simp
    · exact ih st' _ (by have := lexStep_tok_lt he; omega)
    · exact ih st' _ (by have := lexStep_skip_lt he; omega)

theorem tokenize_ok_to_tokenizeO {cc : CharClasses} {s : String} {ts : List Token}
    (h : tokenize cc s = .ok ts) : tokenizeO cc s = some (.ok ts) := by
  unfold tokenize at h
  rcases ho : tokenizeO cc s with _ | r
  · rw [ho] at h
    simp [Option.getD] at h
  · rw [ho] at h
    simp [Option.getD] at h
    rw [h]


/-! Claim theorems C6, C7, C8, C10 (lexer). -/

/-- C6, counterexample: tokenizing `Threshold: 0.95` does not produce exactly
the three tokens `[THRESHOLD, COLON, NUMBER(0.95)]` — the lexer appends a
terminal `EOF` token, so the claim's "no more and no fewer tokens" is false
at this concrete input. -/
theorem C6_counterexample_eof_token :
    (tokenize asciiCC "Threshold: 0.95").map (fun ts => ts.map Token.type) ≠
      .ok [.THRESHOLD, .COLON, .NUMBER] := by
  with_unfolding_all decide

/-- C6, amended: tokenizing `Threshold: 0.95` produces exactly the four
tokens `[THRESHOLD, COLON, NUMBER(0.95), EOF]`, with these lexemes, lines
and columns.  The input is all-ASCII, where `asciiCC` coincides with
Python's Unicode character classes. -/
theorem C6_tokenize_threshold_line :
    tokenize asciiCC "Threshold: 0.95" =
      .ok [⟨.THRESHOLD, .str "Threshold", 1, 1⟩, ⟨.COLON, .str ":", 1, 10⟩,
           ⟨.NUMBER, .num (19 / 20), 1, 12⟩, ⟨.EOF, .noneV, 1, 16⟩] := by
  with_unfolding_all decide

/-- C7: whenever `tokenize` returns a token list — under any admissible
character classes, Python's Unicode tables included — that list is
non-empty, its last token has kind `EOF`, and `EOF` occurs exactly once in
it. -/
theorem C7_tokenize_eof_invariant (cc : CharClasses) (s : String) (ts : List Token)
    (h : tokenize cc s = .ok ts) :
    ts ≠ [] ∧ (ts.getLast?).map Token.type = some .EOF ∧
      ts.countP (fun t => decide (t.type = .EOF)) = 1 := by
  have ho := tokenize_ok_to_tokenizeO h
  obtain ⟨mid, l, k, hts, hmid⟩ := tokenizeAux_ok_shape _ _ _ _ _ ho
  subst hts
  refine ⟨by simp, ?_, ?_⟩
  · simp [List.getLast?_concat]
  · rw [List.countP_append]
    have h1 : (([] ++ mid : List Token)).countP (fun t => decide (t.type = .EOF)) = 0 := by
      rw [List.countP_eq_zero]
      intro t ht
      simp only [List.nil_append] at ht
      simp only [decide_eq_true_eq]
      exact hmid t ht
    rw [h1]
    simp

/-- Witness for C7 at the concrete source string `x`. -/
theorem C7_tokenize_eof_invariant_witness :
    tokenize asciiCC "x" = .ok [⟨.IDENTIFIER, .str "x", 1, 1⟩, ⟨.EOF, .noneV, 1, 2⟩] ∧
    (([⟨.IDENTIFIER, .str "x", 1, 1⟩, ⟨.EOF, .noneV, 1, 2⟩] : List Token) ≠ [] ∧
      (([⟨.IDENTIFIER, .str "x", 1, 1⟩, ⟨.EOF, .noneV, 1, 2⟩] : List Token).getLast?).map
        Token.type = some .EOF ∧
      ([⟨.IDENTIFIER, .str "x", 1, 1⟩, ⟨.EOF, .noneV, 1, 2⟩] : List Token).countP
        (fun t => decide (t.type = .EOF)) = 1) := by
  have h : tokenize asciiCC "x" =
      .ok [⟨.IDENTIFIER, .str "x", 1, 1⟩, ⟨.EOF, .noneV, 1, 2⟩] := by
    with_unfolding_all decide
  exact ⟨h, C7_tokenize_eof_invariant asciiCC "x" _ h⟩

/-- C8: the `tokenize` loop body, for any admissible character classes (in
particular Python's Unicode tables), on a non-whitespace current character
at line `l`, column `k`: a lone `=`, `!` or `-` (not starting `==`, `!=`,
`->`) raises a lexical error carrying that line and column; the
two-character operators `>= <= == != ->` are matched greedily when the
peeked character completes them; and any character matched by no rule — the
number/identifier classes taken at the `cc` parameter, so nothing here
narrows them to ASCII — raises a lexical error carrying the offending line,
column and character. -/
theorem C8_lex_error_position_and_greedy_operators (cc : CharClasses) (l k : ℕ)
    (c : Char) (cs : List Char)
    (hws : ¬(c = ' ' ∨ c = '\t' ∨ c = '\r')) :
    (c = '=' → cs.head? ≠ some '=' →
      lexStep cc ⟨c :: cs, l, k⟩ = .errR (.unexpectedChar l k '=')) ∧
    (c = '!' → cs.head? ≠ some '=' →
      lexStep cc ⟨c :: cs, l, k⟩ = .errR (.unexpectedChar l k '!')) ∧
    (c = '-' → cs.head? ≠ some '>' →
      lexStep cc ⟨c :: cs, l, k⟩ = .errR (.unexpectedChar l k '-')) ∧
    (c = '>' → cs.head? = some '=' →
      lexStep cc ⟨c :: cs, l, k⟩ = .tokR ⟨.GTE, .str ">=", l, k⟩ ⟨cs.tail, l, k + 2⟩) ∧
    (c = '<' → cs.head? = some '=' →
      lexStep cc ⟨c :: cs, l, k⟩ = .tokR ⟨.LTE, .str "<=", l, k⟩ ⟨cs.tail, l, k + 2⟩) ∧
    (c = '=' → cs.head? = some '=' →
      lexStep cc ⟨c :: cs, l, k⟩ = .tokR ⟨.EQ, .str "==", l, k⟩ ⟨cs.tail, l, k + 2⟩) ∧
    (c = '!' → cs.head? = some '=' →
      lexStep cc ⟨c :: cs, l, k⟩ = .tokR ⟨.NEQ, .str "!=", l, k⟩ ⟨cs.tail, l, k + 2⟩) ∧
    (c = '-' → cs.head? = some '>' →
      lexStep cc ⟨c :: cs, l, k⟩ = .tokR ⟨.ARROW, .str "->", l, k⟩ ⟨cs.tail, l, k + 2⟩) ∧
    (recognizedChar cc c = false →
      lexStep cc ⟨c :: cs, l, k⟩ = .errR (.unexpectedChar l k c)) := by
  have hskip : skipWs (c :: cs) l k = ⟨c :: cs, l, k⟩ := by
    simp only [skipWs]
    rw [if_neg hws]
  have hstep : lexStep cc ⟨c :: cs, l, k⟩ = lexCore cc c cs l k := by
    simp only [lexStep, hskip]
  have hop : ∀ d : Char, d.toNat < 128 →
      cc.isDigit d = d.isDigit ∧ cc.isAlpha d = d.isAlpha := fun d hd =>
    ⟨(cc.ascii_agree d hd).1, (cc.ascii_agree d hd).2.1⟩
  refine ⟨?_, ?_, ?_, ?_, ?_, ?_, ?_, ?_, ?_⟩
  · intro hc hp; subst hc; rw [hstep]
    obtain ⟨hd, ha⟩ := hop '=' (by decide)
    simp [lexCore, lexOp, hp, hd, ha]
  · intro hc hp; subst hc; rw [hstep]
    obtain ⟨hd, ha⟩ := hop '!' (by decide)
    simp [lexCore, lexOp, hp, hd, ha]
  · intro hc hp; subst hc; rw [hstep]
    obtain ⟨hd, ha⟩ := hop '-' (by decide)
    simp [lexCore, lexOp, hp, hd, ha]
  · intro hc hp; subst hc; rw [hstep]
    obtain ⟨hd, ha⟩ := hop '>' (by decide)
    simp [lexCore, lexOp, hp, hd, ha]
  · intro hc hp; subst hc; rw [hstep]
    obtain ⟨hd, ha⟩ := hop '<' (by decide)
    simp [lexCore, lexOp, hp, hd, ha]
  · intro hc hp; subst hc; rw [hstep]
    obtain ⟨hd, ha⟩ := hop '=' (by decide)
    simp [lexCore, lexOp, hp, hd, ha]
  · intro hc hp; subst hc; rw [hstep]
    obtain ⟨hd, ha⟩ := hop '!' (by decide)
    simp [lexCore, lexOp, hp, hd, ha]
  · intro hc hp; subst hc; rw [hstep]
    obtain ⟨hd, ha⟩ := hop '-' (by decide)
    simp [lexCore, lexOp, hp, hd, ha]
  · intro hr
    rw [hstep]
    simp only [recognizedChar, Bool.or_eq_false_iff, decide_eq_false_iff_not] at hr
    obtain ⟨⟨⟨⟨⟨⟨⟨⟨⟨⟨⟨⟨⟨⟨⟨⟨⟨⟨⟨⟨⟨r1, r2⟩, r3⟩, r4⟩, r5⟩, r6⟩, r7⟩, r8⟩, r9⟩, r10⟩, r11⟩,
      r12⟩, r13⟩, r14⟩, r15⟩, r16⟩, r17⟩, r18⟩, r19⟩, r20⟩, r21⟩, r22⟩ := hr
    simp [lexCore, lexOp, r4, r5, r6, r7, r9, r10, r11, r12, r13, r14, r15, r16, r17,
      r18, r19, r20, r21, r22, r8]

/-- Witness for C8 at the ASCII classes (which agree with Python's Unicode
tables on these characters): a lone `=` at line 1 column 5 raises with that
position; `>=` is lexed greedily as one token; `@` is an unrecognized
character. -/
theorem C8_lex_error_position_witness :
    lexStep asciiCC ⟨['='], 1, 5⟩ = .errR (.unexpectedChar 1 5 '=') ∧
    lexStep asciiCC ⟨['>', '='], 2, 3⟩ = .tokR ⟨.GTE, .str ">=", 2, 3⟩ ⟨[], 2, 5⟩ ∧
    lexStep asciiCC ⟨['@'], 7, 9⟩ = .errR (.unexpectedChar 7 9 '@') := by
  refine ⟨?_, ?_, ?_⟩
  · exact (C8_lex_error_position_and_greedy_operators asciiCC 1 5 '=' []
      (by decide)).1 rfl (by decide)
  · exact (C8_lex_error_position_and_greedy_operators asciiCC 2 3 '>' ['=']
      (by decide)).2.2.2.1 rfl rfl
  · exact (C8_lex_error_position_and_greedy_operators asciiCC 7 9 '@' []
      (by decide)).2.2.2.2.2.2.2.2 (by with_unfolding_all decide)

/-- C10: the lexer main loop terminates on every finite input, under any
admissible character classes (Python's Unicode tables included) — with fuel
`length + 1`, one unit per loop iteration (each iteration strictly consumes
input or stops), `tokenizeAux` always delivers a result, so `tokenize` is a
total function returning a token list or a raised lexical error. -/
theorem C10_tokenize_terminates (cc : CharClasses) (s : String) : (tokenizeO cc s).isSome :=
  tokenizeAux_isSome cc _ _ _ (Nat.lt_succ_self _)


/-! Lemmas and claim theorems for the interpreter and the Pulse parser. -/

theorem resonance_foldl_sums (p : Proposal) (ctx : Ctx) (l : List Avatar) :
    ∀ (a b : ℚ),
      l.foldl (fun (x : ℚ × ℚ) av =>
          (x.1 + av.weight * av.scoreProposal p ctx, x.2 + av.weight)) (a, b) =
        (a + (l.map (fun av => av.weight * av.scoreProposal p ctx)).sum,
         b + (l.map (fun av => av.weight)).sum) := by
  induction l with
  | nil => intro a b; simp
  | cons x xs ih =>
    intro a b
    simp only [List.foldl_cons, List.map_cons, List.sum_cons]
    rw [ih]
    refine Prod.ext ?_ ?_ <;> simp <;> ring

theorem runManifestStmts_fst (m : MCP) (stmts : List MStmt) :
    ∀ (pot : Potentiality), (runManifestStmts m pot stmts).1 = stmts.map (manifestEffect m) := by
  induction stmts with
  | nil => intro pot; simp [runManifestStmts]
  | cons s rest ih =>
    intro pot
    cases s with
    | executeS a => simp [runManifestStmts, manifestEffect, ih]
    | updateS t v => simp [runManifestStmts, manifestEffect, ih]

theorem parsePulseStatement_none (f : ℕ) (st : PState)
    (hw : (currentToken st).type ≠ .WATCH) (ho : (currentToken st).type ≠ .OBSERVE)
    (hd : (currentToken st).type ≠ .DELIBERATE) (hr : (currentToken st).type ≠ .RESONATE)
    (hm : (currentToken st).type ≠ .MANIFEST) :
    parsePulseStatement f st = .ok (none, st) := by
  rw [parsePulseStatement.eq_def]
  rw [if_neg (by simp [hw, ho]), if_neg hd, if_neg hr, if_neg hm]

/-- C1: `ResonanceEngine.calculate_resonance` returns the weight-normalized
mean `R = sum(weight * score) / sum(weight)` with the covenant veto applied
(`R` when `R` meets `covenant_threshold`, else `0`), and returns `0` when the
avatar list is empty or the total weight is zero — never a division error. -/
theorem C1_resonance_weighted_mean_with_veto (avatars : List Avatar) (proposal : Proposal)
    (context : Ctx) (covenant_threshold : ℚ) :
    (avatars = [] → calculateResonance avatars proposal context covenant_threshold = 0) ∧
    ((avatars.map (fun a => a.weight)).sum = 0 →
      calculateResonance avatars proposal context covenant_threshold = 0) ∧
    (avatars ≠ [] → (avatars.map (fun a => a.weight)).sum ≠ 0 →
      calculateResonance avatars proposal context covenant_threshold =
        (if (avatars.map (fun a => a.weight * a.scoreProposal proposal context)).sum /
              (avatars.map (fun a => a.weight)).sum ≥ covenant_threshold
         then (avatars.map (fun a => a.weight * a.scoreProposal proposal context)).sum /
              (avatars.map (fun a => a.weight)).sum
         else 0)) := by
  refine ⟨?_, ?_, ?_⟩
  · intro h; subst h; rfl
  · intro hW
    rcases avatars with _ | ⟨a, as⟩
    · rfl
    · simp only [calculateResonance, resonance_foldl_sums, zero_add]
      rw [if_pos hW]
      simp
  · intro hne hW
    rcases avatars with _ | ⟨a, as⟩
    · exact absurd rfl hne
    · simp only [calculateResonance, resonance_foldl_sums, zero_add]
      rw [if_neg hW]
      split_ifs with hcmp
      · simp
      · simp

/-- Witness for C1: one avatar of weight `1` scoring `0.92` against covenant
threshold `0.5` resonates at `0.92`. -/
theorem C1_resonance_weighted_mean_witness :
    calculateResonance [avSage] ⟨"manifest", ctxDomainD⟩ ctxDomainD (1 / 2) = 92 / 100 := by
  have h := (C1_resonance_weighted_mean_with_veto [avSage] ⟨"manifest", ctxDomainD⟩
      ctxDomainD (1 / 2)).2.2 (by simp) (by with_unfolding_all decide)
  rw [h]
  with_unfolding_all decide

/-- C2 (code bug): Phase B never completes for any Domain — `_execute_domain`
reads the nonexistent `domain.context` attribute (genesis_interpreter.py:515;
`DomainDeclaration`, genesis_parser.py:456-464, has no such field) and so
raises `AttributeError` before the inline-pantheon merge, Soul initialization
and pulse execution can run. -/
theorem C2_domain_execution_raises_attribute_error (rt : RT) (o : Option Oracle)
    (d : DomainDecl) :
    (executeDomain rt o d).2 = .error (.attributeError "DomainDeclaration" "context") := rfl

/-- C3, counterexample: `console.write` is registered in the tool dispatcher,
yet an Execute whose action is the call `console.write("hi")` is not
dispatched — `_execute_action` only dispatches names starting with `mcp.`,
so this call falls through both branches and has no effect at all. -/
theorem C3_counterexample_console_write_not_dispatched :
    "console.write" ∈ initMCP.tools ∧
    executeAction initMCP (.funcCall "console.write" [.literal (.str "hi")]) = .silent := by
  constructor
  · with_unfolding_all decide
  · with_unfolding_all rfl

/-- C3, amended: an Execute whose action is a call is dispatched through the
tool registry iff its name starts with `mcp.` (a registered name is invoked,
an unknown one yields the logged `None` sentinel without raising); a call
without the `mcp.` prefix — even a registered tool such as `console.write` —
has no effect, and a non-call action is only logged. -/
theorem C3_amended_only_mcp_prefixed_calls_dispatch (m : MCP) (n : String)
    (args : List Expr) (v : TokValue) :
    (pyStartsWith n "mcp." = true →
      executeAction m (.funcCall n args) =
        .dispatched n (args.map convArg)
          (if n ∈ m.tools then .invoked n else .notFoundSentinel n)) ∧
    (pyStartsWith n "mcp." = false →
      executeAction m (.funcCall n args) = .silent) ∧
    executeAction m (.literal v) = .logged (.literal v) := by
  refine ⟨?_, ?_, rfl⟩
  · intro h; simp [executeAction, callTool, h]
  · intro h; simp [executeAction, h]

/-- Witness for C3: the registered `mcp.call` is invoked, the unregistered
`mcp.lookup` is dispatched to the `None`-sentinel path. -/
theorem C3_amended_witness :
    executeAction initMCP (.funcCall "mcp.call" []) =
      .dispatched "mcp.call" [] (.invoked "mcp.call") ∧
    executeAction initMCP (.funcCall "mcp.lookup" []) =
      .dispatched "mcp.lookup" [] (.notFoundSentinel "mcp.lookup") := by
  constructor
  · have h := (C3_amended_only_mcp_prefixed_calls_dispatch initMCP "mcp.call" []
        (.str "")).1 (by with_unfolding_all decide)
    rw [h, if_pos (show "mcp.call" ∈ initMCP.tools by with_unfolding_all decide)]
    rfl
  · have h := (C3_amended_only_mcp_prefixed_calls_dispatch initMCP "mcp.lookup" []
        (.str "")).1 (by with_unfolding_all decide)
    rw [h, if_neg (show ¬ "mcp.lookup" ∈ initMCP.tools by with_unfolding_all decide)]
    rfl

/-- C4, counterexample: a Resonate whose `Threshold` property is the call
`Custom_Fn("x")` stores the string `"x"` as the context threshold — the code
does not require a number — and the subsequent Manifest comparison
`resonance >= threshold` raises `TypeError`: the pulse neither manifests nor
defers. -/
theorem C4_counterexample_string_threshold_type_error :
    (executeResonate resonateStringThreshold ctxDomainD).resonance_threshold =
      some (.str "x") ∧
    (executeManifest rtOnePantheon none mbTwoStatements
        (executeResonate resonateStringThreshold ctxDomainD)).2 =
      .error .typeErrorCompare := by
  constructor
  · with_unfolding_all rfl
  · with_unfolding_all rfl

/-- C4, amended: a Resonate whose `Threshold` is a call with a leading
numeric-literal argument stores that number as the context threshold; a
Manifest then runs its statements, in declared order, iff the resonance
meets the stored threshold (default `0.9` when none was stored), and
otherwise executes nothing. -/
theorem C4_amended_numeric_threshold_gate (rt : RT) (o : Option Oracle) (mb : ManifestB)
    (ctx : Ctx) (r : ResonateProps) (n : String) (q : ℚ) (args : List Expr) (ct : ℚ) :
    (r.threshold = some (.funcCall n (.literal (.num q) :: args)) →
      (executeResonate r ctx).resonance_threshold = some (.num q)) ∧
    (covThreshold rt.covenants = .ok ct →
      (ctx.resonance_threshold = none ∧ q = 9 / 10 ∨ ctx.resonance_threshold = some (.num q)) →
      (executeManifest rt o mb ctx).2 =
        .ok (if calculateResonance (rt.pantheons.foldl (fun acc p => acc ++ p.2) [])
              ⟨"manifest", ctx⟩ ctx ct ≥ q
            then runManifestStmts rt.mcp rt.potentiality mb.statements
            else ([], rt.potentiality))) ∧
    ((runManifestStmts rt.mcp rt.potentiality mb.statements).1 =
      mb.statements.map (manifestEffect rt.mcp)) := by
  refine ⟨?_, ?_, runManifestStmts_fst _ _ _⟩
  · intro h
    simp [executeResonate, h]
  · intro hcov hth
    rcases hth with ⟨h0, rfl⟩ | hsv
    · simp only [executeManifest, hcov, h0, Option.getD]
      split_ifs <;> cases o <;> simp
    · simp only [executeManifest, hcov, hsv, Option.getD]
      split_ifs <;> cases o <;> simp

/-- Witness for C4: `Stability_Fn(0.9)` stores `0.9`, and a one-avatar
runtime with resonance `0.92 ≥ 0.9` manifests its statements. -/
theorem C4_amended_numeric_threshold_witness :
    (executeResonate resonateNumThreshold ctxDomainD).resonance_threshold =
      some (.num (9 / 10)) ∧
    (executeManifest rtOnePantheon none mbTwoStatements ctxDomainD).2 =
      .ok (runManifestStmts rtOnePantheon.mcp rtOnePantheon.potentiality
        mbTwoStatements.statements) := by
  have h := C4_amended_numeric_threshold_gate rtOnePantheon none mbTwoStatements
      ctxDomainD resonateNumThreshold "Stability_Fn" (9 / 10) [] 0
  refine ⟨h.1 rfl, ?_⟩
  rw [h.2.1 (by with_unfolding_all rfl) (Or.inl ⟨rfl, rfl⟩)]
  rw [if_pos (by with_unfolding_all decide)]

/-- C5, counterexample: parsing `Pulse { Execute` — whose statement head
`Execute` is none of Watch/Observe, Deliberate, Resonate, Manifest — does
not return a `PulseDefinition` with the statements parsed so far: the break
is followed by `expect(RBRACE)`, which raises a `ParseError` at the
unrecognized token. -/
theorem C5_counterexample_unknown_head_parse_error :
    tokenize asciiCC "Pulse \x7b Execute" = .ok pulseTruncTokens ∧
    parsePulse 8 ⟨pulseTruncTokens, 0⟩ =
      .error (.expectedErr .RBRACE .EXECUTE 1 9) := by
  constructor
  · with_unfolding_all rfl
  · with_unfolding_all rfl

/-- C5, amended: inside a Pulse body, a current token that is none of
Watch/Observe, Deliberate, Resonate, Manifest ends the statement list, after
which `expect(RBRACE)` runs at the unchanged position: a closing brace ends
the Pulse normally with the statements parsed so far, while any other
unrecognized head raises a `ParseError` carrying `RBRACE`, the offending
token's type and its position — not silent truncation. -/
theorem C5_amended_unrecognized_head_requires_rbrace (f : ℕ) (st : PState)
    (acc : List PulseStmt)
    (hw : (currentToken st).type ≠ .WATCH) (ho : (currentToken st).type ≠ .OBSERVE)
    (hd : (currentToken st).type ≠ .DELIBERATE) (hr : (currentToken st).type ≠ .RESONATE)
    (hm : (currentToken st).type ≠ .MANIFEST) :
    ((currentToken st).type = .RBRACE →
      parsePulseBody (f + 1) st acc = .ok (acc, advanceP st)) ∧
    ((currentToken st).type ≠ .RBRACE →
      parsePulseBody (f + 1) st acc =
        .error (.expectedErr .RBRACE (currentToken st).type
          (currentToken st).line (currentToken st).col)) := by
  constructor
  · intro hrb
    rw [parsePulseBody]
    rw [if_pos hrb]
    simp only [expectT]
    rw [if_pos hrb]
    rfl
  · intro hnrb
    rw [parsePulseBody, if_neg hnrb]
    simp only []
    rw [parsePulseStatement_none f st hw ho hd hr hm]
    simp only [expectT]
    rw [if_neg hnrb]
    rfl

/-- Witness for C5 at the token stream of `Pulse { Execute`, positioned at
the `Execute` head. -/
theorem C5_amended_unrecognized_head_witness :
    parsePulseBody 1 ⟨pulseTruncTokens, 2⟩ [] =
      .error (.expectedErr .RBRACE .EXECUTE 1 9) := by
  have h := (C5_amended_unrecognized_head_requires_rbrace 0 ⟨pulseTruncTokens, 2⟩ []
      (by with_unfolding_all decide) (by with_unfolding_all decide)
      (by with_unfolding_all decide) (by with_unfolding_all decide)
      (by with_unfolding_all decide)).2 (by with_unfolding_all decide)
  exact h.trans (by with_unfolding_all rfl)

/-- C9: the manifested-vs-deferred outcome of a Manifest evaluation, and the
registries a processed declaration produces, are independent of the attached
compliance collaborator: any two oracles — or none — yield the same
Execute/Update effects and Potentiality state, and the same registry state;
only the audit trail differs. -/
theorem C9_compliance_noninterference (rt : RT) (mb : ManifestB) (ctx : Ctx)
    (o₁ o₂ : Oracle) (d : Declaration) :
    ((executeManifest rt (some o₁) mb ctx).2 = (executeManifest rt (some o₂) mb ctx).2) ∧
    ((executeManifest rt (some o₁) mb ctx).2 = (executeManifest rt none mb ctx).2) ∧
    ((processDeclaration rt (some o₁) d).1 = (processDeclaration rt (some o₂) d).1) ∧
    ((processDeclaration rt (some o₁) d).1 = (processDeclaration rt none d).1) := by
  have hm : ∀ (o : Option Oracle), (executeManifest rt o mb ctx).2 =
      (executeManifest rt none mb ctx).2 := by
    intro o
    rcases hc : covThreshold rt.covenants with e | ct <;>
      (simp only [executeManifest, hc]
       try (rcases ht : ctx.resonance_threshold.getD (.num (9 / 10)) with sv | qv | _ <;>
         cases o <;> (try split) <;> (try split) <;> simp_all))
  have hp : ∀ (o : Option Oracle), (processDeclaration rt o d).1 =
      (processDeclaration rt none d).1 := by
    intro o
    cases d <;> cases o <;> simp [processDeclaration]
  exact ⟨(hm _).trans (hm _).symm, hm _, (hp _).trans (hp _).symm, hp _⟩

end Genesis
